import Mathlib

/- Shallow embedding of the spreadsheet validator repository:
   app/utils.py (row canonicalization and fingerprints),
   app/fix_utils.py (fix lifecycle state transitions),
   app/tools/validation.py (business rule validator), and
   app/run_manager.py (HITL run coordination).

   Modeling conventions.  Python scalar cell values are the inductive type
   Value; Python floats are exact rationals (no claim below depends on the
   gap between a binary double and its decimal reading: claims only compare
   rounded values for equality), float NaN is the separate constructor
   Value.nan, and the dynamic typing of cells is captured by the
   constructors.  A Python dict is an insertion ordered association list.
   SHA-256 is modeled by the injective Digest constructor applied to the
   canonical serialization: every claim concerns only equality or
   inequality of fingerprints, and json.dumps of the normalized dict with
   sorted keys is modeled by the sorted association list itself, on which
   json.dumps is injective. -/

/-- Scalar cell value of a row (model of the Python scalars that occur in
dataframe records). -/
inductive Value where
  | null
  | nan
  | int (n : ℤ)
  | float (q : ℚ)
  | str (s : String)
deriving DecidableEq

/-- Row: ordered field to scalar mapping (Python dict), as in spec section 3. -/
abbrev Row := List (String × Value)

/-- Lookup of row.get(field): first entry with the given key. -/
def rowGet (row : Row) (k : String) : Option Value :=
  (row.find? (fun p => decide (p.1 = k))).map (·.2)

/-- Lookup of row.get(field, default). -/
def rowGetD (row : Row) (k : String) (d : Value) : Value :=
  (rowGet row k).getD d

/-- Model of the Python assignment row[field] = value: update the entry in
place when the key is present, append otherwise. -/
def rowSet (row : Row) (k : String) (v : Value) : Row :=
  if k ∈ row.map Prod.fst then
    row.map (fun p => if p.1 = k then (k, v) else p)
  else
    row ++ [(k, v)]

/-- Model of Python str() on a cell value.  The float branch is a simplified
injective rendering of repr(float); its exact text is never load bearing. -/
def pyStr : Value → String
  | .null => "None"
  | .nan => "nan"
  | .int n => toString n
  | .float q => if q.den = 1 then toString q.num ++ ".0"
                else toString q.num ++ "/" ++ toString q.den
  | .str s => s

/-- Round q times 10 to the 6 to the nearest integer, ties to even, using only
integer arithmetic (model of round(v, 6) scaled by 10 to the 6; CPython rounds
the binary double half to even, which this reproduces on the exact value). -/
def roundHalfEven6 (q : ℚ) : ℤ :=
  let n := q.num * 1000000
  let d := (q.den : ℤ)
  let f := n.fdiv d
  let r2 := 2 * (n - f * d)
  if r2 < d then f
  else if d < r2 then f + 1
  else if f % 2 = 0 then f else f + 1

/-- Model of round(v, 6) on a float value. -/
def pyRound6 (q : ℚ) : ℚ := mkRat (roundHalfEven6 q) 1000000

/-- Normalized value produced by the normalize closure inside
canonicalize_row: either a string or a rounded float (round returns float,
everything else is stringified). -/
inductive NormValue where
  | str (s : String)
  | num (q : ℚ)
deriving DecidableEq

/-- The normalize closure of app/utils.py canonicalize_row: None and NaN map
to the token "null", floats are rounded to 6 decimals, everything else is
stringified. -/
def normalizeValue : Value → NormValue
  | .null => .str "null"
  | .nan => .str "null"
  | .float q => .num (pyRound6 q)
  | .int n => .str (toString n)
  | .str s => .str s

/-- Lexicographic comparison of strings by code point, as Python compares
str keys in sorted(row.items()); a kernel reducible restatement of the
String order. -/
def strLeb : List Char → List Char → Bool
  | [], _ => true
  | _ :: _, [] => false
  | a :: as, b :: bs => if a < b then true else if a = b then strLeb as bs else false

/-- Key order used to sort the entries of a row by field name. -/
def keyLE (a b : String × NormValue) : Prop := strLeb a.1.data b.1.data = true

instance : DecidableRel keyLE := fun a b =>
  inferInstanceAs (Decidable (strLeb a.1.data b.1.data = true))

theorem strLeb_total : ∀ as bs : List Char, strLeb as bs = true ∨ strLeb bs as = true := by
  intro as
  induction as with
  | nil => intro bs; left; rfl
  | cons a as ih =>
    intro bs
    cases bs with
    | nil => right; rfl
    | cons b bs =>
      rcases lt_trichotomy a b with h | h | h
      · left; simp [strLeb, h]
      · subst h
        rcases ih bs with h2 | h2
        · left; simp [strLeb, h2]
        · right; simp [strLeb, h2]
      · right; simp [strLeb, h]

theorem strLeb_trans : ∀ as bs cs : List Char,
    strLeb as bs = true → strLeb bs cs = true → strLeb as cs = true := by
  intro as
  induction as with
  | nil => intro bs cs _ _; rfl
  | cons a as ih =>
    intro bs cs h1 h2
    cases bs with
    | nil => simp [strLeb] at h1
    | cons b bs =>
      cases cs with
      | nil => simp [strLeb] at h2
      | cons c cs =>
        simp only [strLeb] at h1 h2 ⊢
        by_cases hab : a < b
        · by_cases hbc : b < c
          · simp [lt_trans hab hbc]
          · simp only [hbc, if_false] at h2
            by_cases hbceq : b = c
            · subst hbceq; simp [hab]
            · simp [hbceq] at h2
        · simp only [hab, if_false] at h1
          by_cases habeq : a = b
          · subst habeq
            simp only [if_pos rfl] at h1
            by_cases hbc : a < c
            · simp [hbc]
            · simp only [hbc, if_false] at h2 ⊢
              by_cases hbceq : a = c
              · subst hbceq
                simp only [if_pos rfl] at h2 ⊢
                exact ih _ _ h1 h2
              · simp [hbceq] at h2
          · simp [habeq] at h1

theorem strLeb_antisymm : ∀ as bs : List Char,
    strLeb as bs = true → strLeb bs as = true → as = bs := by
  intro as
  induction as with
  | nil =>
    intro bs _ h2
    cases bs with
    | nil => rfl
    | cons b bs => simp [strLeb] at h2
  | cons a as ih =>
    intro bs h1 h2
    cases bs with
    | nil => simp [strLeb] at h1
    | cons b bs =>
      simp only [strLeb] at h1 h2
      by_cases hab : a < b
      · by_cases hba : b < a
        · exact absurd hba (lt_asymm hab)
        · simp only [hba, if_false] at h2
          by_cases hbaeq : b = a
          · exact absurd hbaeq.symm (ne_of_lt hab)
          · simp [hbaeq] at h2
      · simp only [hab, if_false] at h1
        by_cases habeq : a = b
        · subst habeq
          simp only [if_pos rfl] at h1
          simp only [lt_irrefl, if_false, if_pos rfl] at h2
          exact congrArg (a :: ·) (ih bs h1 h2)
        · simp [habeq] at h1

instance : IsTotal (String × NormValue) keyLE := ⟨fun a b => strLeb_total a.1.data b.1.data⟩

instance : IsTrans (String × NormValue) keyLE :=
  ⟨fun _ _ _ h1 h2 => strLeb_trans _ _ _ h1 h2⟩

theorem keyLE_antisymm_fst {a b : String × NormValue} (h1 : keyLE a b) (h2 : keyLE b a) :
    a.1 = b.1 := by
  have := strLeb_antisymm a.1.data b.1.data h1 h2
  cases ha : a.1 with
  | mk da => cases hb : b.1 with
    | mk db =>
      rw [ha, hb] at this
      simp only at this
      rw [this]

/-- Strict key order: used only to show the sorted form is unique. -/
def keyLT (a b : String × NormValue) : Prop := keyLE a b ∧ a.1 ≠ b.1

instance : IsAntisymm (String × NormValue) keyLT :=
  ⟨fun _ _ h1 h2 => absurd (keyLE_antisymm_fst h1.1 h2.1) h1.2⟩

/-- Model of canonicalize_row of app/utils.py: normalize each value, sort
the entries by field name; the deterministic JSON serialization is modeled
by the sorted association list itself. -/
def canonicalize_row (row : Row) : List (String × NormValue) :=
  List.insertionSort keyLE (row.map (fun p => (p.1, normalizeValue p.2)))

/-- Fingerprint of a row (model of compute_row_fingerprint of app/utils.py);
the SHA-256 digest is modeled by the injective constructor, since only
fingerprint equality is ever consumed. -/
structure Digest where
  canonical : List (String × NormValue)
deriving DecidableEq

def compute_row_fingerprint (row : Row) : Digest :=
  ⟨canonicalize_row row⟩

def compute_all_fingerprints (records : List Row) : List Digest :=
  records.map compute_row_fingerprint

/-- Python dict lookup m.get(k) / m[k], modeled on an association list. -/
def dictLookup [DecidableEq κ] (m : List (κ × ν)) (k : κ) : Option ν :=
  (m.find? (fun p => decide (p.1 = k))).map (·.2)

/-- Python k in m. -/
def dictContainsB [DecidableEq κ] (m : List (κ × ν)) (k : κ) : Bool :=
  m.any (fun p => decide (p.1 = k))

/-- Python del m[k]. -/
def dictErase [DecidableEq κ] (m : List (κ × ν)) (k : κ) : List (κ × ν) :=
  m.filter (fun p => decide (p.1 ≠ k))

/-- Python m[k] = v. -/
def dictInsert [DecidableEq κ] (m : List (κ × ν)) (k : κ) (v : ν) : List (κ × ν) :=
  if dictContainsB m k then m.map (fun p => if p.1 = k then (k, v) else p)
  else m ++ [(k, v)]

/-- Kind of a business rule violation of app/tools/validation.py; the f-string
message text is presentational and modeled by the kind. -/
inductive ErrKind where
  | empIdFormat
  | deptEnum
  | amountRange
  | amountInvalid
  | currencyEnum
  | futureDate
  | dateFormat
  | vendorEmpty
  | fxRequired
  | fxRange
  | fxInvalid
  | duplicatePair
deriving DecidableEq

/-- One entry of pending_fixes, remaining_fixes or skipped_fixes, as built in
validate_data: row_index, field, current_value, error_message.  Entries are
produced by the validator with an in range natural row index, so row_index
is modeled as a natural number. -/
structure FixEntry where
  row_index : ℕ
  field : String
  current_value : String
  error_message : ErrKind
deriving DecidableEq

/-- Session state dict restricted to the keys the validator and the fix
lifecycle read and write.  A missing key is observationally the default that
state.get supplies, so the keys are modeled as always present fields;
waiting_since timestamps are abstract clock values. -/
structure SessionState where
  dataframe_records : List Row
  row_fingerprints : List Digest
  validated_row_fingerprints : List (Digest × Bool)
  pending_fixes : List FixEntry
  remaining_fixes : List FixEntry
  skipped_fixes : List FixEntry
  status : String
  waiting_since : Option ℕ
  validation_complete : Bool
  total_error_rows : ℕ
deriving DecidableEq

/-- The dynamically typed row_index argument of the fix functions. -/
inductive PyIdx where
  | int (i : ℤ)
  | str (s : String)
  | float (q : ℚ)
  | other
deriving DecidableEq

/-- Decimal digit list to number; none when empty or a non digit occurs. -/
def digitsToNat? (cs : List Char) : Option ℕ :=
  if cs.isEmpty then none
  else cs.foldl (fun acc c =>
    match acc with
    | none => none
    | some n => if c.isDigit then some (n * 10 + (c.toNat - 48)) else none) (some 0)

/-- Model of Python int(str): optional sign then decimal digits (the
underscore and whitespace tolerances of CPython are an unused fragment). -/
def parseIntStr (s : String) : Option ℤ :=
  match s.data with
  | '-' :: rest => (digitsToNat? rest).map (fun n => -(n : ℤ))
  | '+' :: rest => (digitsToNat? rest).map (fun n => (n : ℤ))
  | cs => (digitsToNat? cs).map (fun n => (n : ℤ))

/-- Model of int(row_index): succeeds on ints, int like strings and floats
(truncation toward zero), raises TypeError or ValueError otherwise. -/
def pyToInt : PyIdx → Option ℤ
  | .int i => some i
  | .str s => parseIntStr s
  | .float q => some (Int.tdiv q.num (q.den : ℤ))
  | .other => none

def FIX_BATCH_SIZE : ℕ := 5

/-- Transcription of app/fix_utils.py _rebatch_fixes: when the pending batch
is empty and unsurfaced fixes remain, surface the next FIX_BATCH_SIZE rows
worth of entries and re-enter WAITING_FOR_USER. -/
def rebatch_fixes (st : SessionState) (now : ℕ) : SessionState :=
  if st.pending_fixes.isEmpty ∧ ¬st.remaining_fixes.isEmpty then
    { st with pending_fixes := st.remaining_fixes.take FIX_BATCH_SIZE,
              remaining_fixes := st.remaining_fixes.drop FIX_BATCH_SIZE,
              status := "WAITING_FOR_USER",
              waiting_since := some now }
  else st

/-- Result of apply_single_fix. -/
inductive SingleFixResult where
  | error (message : String)
  | fixed (row_index : ℕ) (field : String) (old_value new_value : Value)
      (remaining_fixes : ℕ)
deriving DecidableEq

/-- Transcription of app/fix_utils.py apply_single_fix. -/
def apply_single_fix (st : SessionState) (row_index : PyIdx) (field : String)
    (new_value : Value) (now : ℕ) : SingleFixResult × SessionState :=
  match pyToInt row_index with
  | none => (.error "Invalid row_index. Must be an integer.", st)
  | some i =>
    let records := st.dataframe_records
    if i < 0 ∨ (records.length : ℤ) ≤ i then
      (.error "Row index out of range.", st)
    else
      let idx := i.toNat
      let row := records.getD idx []
      let old_value := rowGetD row field .null
      let fingerprints := st.row_fingerprints
      let valid_fp := st.validated_row_fingerprints
      let old_fp := fingerprints.get? idx
      let newRow := rowSet row field new_value
      let records2 := records.set idx newRow
      let new_fp := compute_row_fingerprint newRow
      let fingerprints2 :=
        if idx < fingerprints.length then fingerprints.set idx new_fp else fingerprints
      let valid_fp2 :=
        match old_fp with
        | some fp => if dictContainsB valid_fp fp then dictErase valid_fp fp else valid_fp
        | none => valid_fp
      let new_pending :=
        st.pending_fixes.filter (fun f => decide (¬(f.row_index = idx ∧ f.field = field)))
      let st1 := { st with dataframe_records := records2,
                           row_fingerprints := fingerprints2,
                           validated_row_fingerprints := valid_fp2,
                           pending_fixes := new_pending }
      let st2 := rebatch_fixes st1 now
      let st3 :=
        if st2.pending_fixes.isEmpty then { st2 with status := "RUNNING" }
        else { st2 with status := "FIXING", waiting_since := some now }
      (.fixed idx field old_value new_value
        (new_pending.length + st2.remaining_fixes.length), st3)

/-- The dynamically typed fixes argument of apply_batch_fixes. -/
inductive FixesArg where
  | dict (entries : List (String × Value))
  | notDict
deriving DecidableEq

/-- Result of apply_batch_fixes; applied lists (field, old, new) per field. -/
inductive BatchFixResult where
  | error (message : String)
  | fixed (row_index : ℕ) (applied : List (String × Value × Value))
      (remaining_fixes : ℕ)
deriving DecidableEq

/-- Transcription of app/fix_utils.py apply_batch_fixes. -/
def apply_batch_fixes (st : SessionState) (row_index : PyIdx) (fixes : FixesArg)
    (now : ℕ) : BatchFixResult × SessionState :=
  match pyToInt row_index with
  | none => (.error "Invalid row_index. Must be an integer.", st)
  | some i =>
    match fixes with
    | .notDict => (.error "fixes must be a non-empty dict of field to value.", st)
    | .dict entries =>
      if entries.isEmpty then
        (.error "fixes must be a non-empty dict of field to value.", st)
      else
        let records := st.dataframe_records
        if i < 0 ∨ (records.length : ℤ) ≤ i then
          (.error "Row index out of range.", st)
        else
          let idx := i.toNat
          let row := records.getD idx []
          let fingerprints := st.row_fingerprints
          let valid_fp := st.validated_row_fingerprints
          let old_fp := fingerprints.get? idx
          let step := fun (acc : Row × List (String × Value × Value)) (fv : String × Value) =>
            (rowSet acc.1 fv.1 fv.2, acc.2 ++ [(fv.1, rowGetD acc.1 fv.1 .null, fv.2)])
          let folded := entries.foldl step (row, [])
          let newRow := folded.1
          let applied := folded.2
          let records2 := records.set idx newRow
          let new_fp := compute_row_fingerprint newRow
          let fingerprints2 :=
            if idx < fingerprints.length then fingerprints.set idx new_fp else fingerprints
          let valid_fp2 :=
            match old_fp with
            | some fp => if dictContainsB valid_fp fp then dictErase valid_fp fp else valid_fp
            | none => valid_fp
          let fix_fields := entries.map Prod.fst
          let new_pending :=
            st.pending_fixes.filter
              (fun f => decide (¬(f.row_index = idx ∧ f.field ∈ fix_fields)))
          let st1 := { st with dataframe_records := records2,
                               row_fingerprints := fingerprints2,
                               validated_row_fingerprints := valid_fp2,
                               pending_fixes := new_pending }
          let st2 := rebatch_fixes st1 now
          let st3 :=
            if st2.pending_fixes.isEmpty then { st2 with status := "RUNNING" }
            else { st2 with status := "FIXING", waiting_since := some now }
          (.fixed idx applied (new_pending.length + st2.remaining_fixes.length), st3)

/-- Result of apply_skip_row. -/
inductive SkipRowResult where
  | error (message : String)
  | no_op (message : String)
  | skipped (row_index : ℕ) (remaining_fixes : ℕ)
deriving DecidableEq

/-- Transcription of app/fix_utils.py apply_skip_row. -/
def apply_skip_row (st : SessionState) (row_index : PyIdx) (now : ℕ) :
    SkipRowResult × SessionState :=
  match pyToInt row_index with
  | none => (.error "Invalid row_index. Must be an integer.", st)
  | some i =>
    let old_pending := st.pending_fixes
    let row_fixes := old_pending.filter (fun f => decide ((f.row_index : ℤ) = i))
    if row_fixes.isEmpty then (.no_op "No pending fixes for this row.", st)
    else
      let new_pending := old_pending.filter (fun f => decide ((f.row_index : ℤ) ≠ i))
      let skipped2 := st.skipped_fixes ++ row_fixes
      let idx := i.toNat
      let fingerprints := st.row_fingerprints
      let valid_fp2 :=
        if idx < fingerprints.length then
          dictInsert st.validated_row_fingerprints (fingerprints.getD idx ⟨[]⟩) false
        else st.validated_row_fingerprints
      let st1 := { st with pending_fixes := new_pending, skipped_fixes := skipped2,
                           validated_row_fingerprints := valid_fp2 }
      let st2 := rebatch_fixes st1 now
      let st3 :=
        if st2.pending_fixes.isEmpty then { st2 with status := "RUNNING" }
        else { st2 with status := "FIXING", waiting_since := some now }
      (.skipped idx (new_pending.length + st2.remaining_fixes.length), st3)

/-- Result of apply_skip_all. -/
inductive SkipAllResult where
  | no_op (message : String)
  | skipped (skipped_count : ℕ)
deriving DecidableEq

/-- Transcription of app/fix_utils.py apply_skip_all: every pending and
remaining entry is moved to skipped_fixes, the fingerprints of the affected
rows are marked invalid, and the run proceeds directly to packaging. -/
def apply_skip_all (st : SessionState) : SkipAllResult × SessionState :=
  let pending := st.pending_fixes
  let remaining := st.remaining_fixes
  if pending.isEmpty ∧ remaining.isEmpty then
    (.no_op "No pending fixes to skip.", st)
  else
    let fingerprints := st.row_fingerprints
    let skippedRowIdxs := ((pending ++ remaining).map (·.row_index)).dedup
    let valid_fp2 := skippedRowIdxs.foldl
      (fun m ri =>
        if ri < fingerprints.length then dictInsert m (fingerprints.getD ri ⟨[]⟩) false
        else m)
      st.validated_row_fingerprints
    let st1 := { st with validated_row_fingerprints := valid_fp2,
                         skipped_fixes := st.skipped_fixes ++ pending ++ remaining,
                         pending_fixes := [],
                         remaining_fixes := [],
                         status := "RUNNING",
                         validation_complete := true,
                         waiting_since := none }
    (.skipped (pending.length + remaining.length), st1)

/-- Kernel reducible split of a character list at a separator. -/
def splitOnChar : List Char → Char → List (List Char)
  | [], _ => [[]]
  | c :: rest, sep =>
    let r := splitOnChar rest sep
    if c = sep then [] :: r
    else
      match r with
      | [] => [[c]]
      | h :: t => (c :: h) :: t

def isSpaceChar (c : Char) : Bool := decide (c = ' ' ∨ c = '\t' ∨ c = '\n' ∨ c = '\r')

/-- Kernel reducible model of str.strip() on the whitespace fragment in use. -/
def trimChars (cs : List Char) : List Char :=
  ((cs.dropWhile isSpaceChar).reverse.dropWhile isSpaceChar).reverse

/-- Calendar date, the model of datetime.date. -/
structure Date where
  year : ℕ
  month : ℕ
  day : ℕ
deriving DecidableEq

/-- Strict comparison of dates (datetime.date ordering). -/
def dateLt (a b : Date) : Prop :=
  a.year < b.year ∨ (a.year = b.year ∧
    (a.month < b.month ∨ (a.month = b.month ∧ a.day < b.day)))

instance : DecidableRel dateLt := fun a b =>
  inferInstanceAs (Decidable (a.year < b.year ∨ (a.year = b.year ∧
    (a.month < b.month ∨ (a.month = b.month ∧ a.day < b.day)))))

def isLeapYear (y : ℕ) : Bool :=
  decide (y % 4 = 0) && (decide (y % 100 ≠ 0) || decide (y % 400 = 0))

def daysInMonth (y m : ℕ) : ℕ :=
  if m = 2 then (if isLeapYear y then 29 else 28)
  else if m = 4 ∨ m = 6 ∨ m = 9 ∨ m = 11 then 30
  else 31

/-- Model of datetime.strptime(s, "%Y-%m-%d").date(): four year digits, one
or two month and day digits, a real calendar date within datetime range. -/
def parseDate (s : String) : Option Date :=
  match splitOnChar s.data '-' with
  | [ys, ms, ds] =>
    match digitsToNat? ys, digitsToNat? ms, digitsToNat? ds with
    | some y, some m, some d =>
      if ys.length = 4 ∧ 1 ≤ y ∧ ms.length ≤ 2 ∧ ds.length ≤ 2
         ∧ 1 ≤ m ∧ m ≤ 12 ∧ 1 ≤ d ∧ d ≤ daysInMonth y m
      then some ⟨y, m, d⟩ else none
    | _, _, _ => none
  | _ => none

/-- A Python float value: a number or the NaN sentinel. -/
inductive PyFloat where
  | nan
  | num (q : ℚ)
deriving DecidableEq

/-- Model of float(str) on the fragment reachable here: "nan", or optional
sign then digits with an optional fraction part (exponent and infinity
spellings are an unused fragment). -/
def parseFloatStr (s : String) : Option PyFloat :=
  if s = "nan" then some .nan
  else
    let sgncs : ℤ × List Char :=
      match s.data with
      | '-' :: r => (-1, r)
      | '+' :: r => (1, r)
      | r => (1, r)
    match splitOnChar sgncs.2 '.' with
    | [ip] => (digitsToNat? ip).map (fun n => .num (sgncs.1 * (n : ℤ)))
    | [ip, fp] =>
      if ip.isEmpty ∧ fp.isEmpty then none
      else if ip.all Char.isDigit ∧ fp.all Char.isDigit then
        let ipn := (digitsToNat? ip).getD 0
        let fpn := (digitsToNat? fp).getD 0
        some (.num (mkRat (sgncs.1 * ((ipn * 10 ^ fp.length + fpn) : ℤ)) (10 ^ fp.length)))
      else none
    | _ => none

/-- Model of float(v) on a cell value: TypeError and ValueError are none. -/
def pyFloat : Value → Option PyFloat
  | .int n => some (.num (n : ℚ))
  | .float q => some (.num q)
  | .nan => some .nan
  | .null => none
  | .str s => parseFloatStr s

def VALID_DEPARTMENTS : List String := ["FIN", "HR", "ENG", "OPS"]

def VALID_CURRENCIES : List String := ["USD", "EUR", "GBP", "INR"]

/-- Model of EMPLOYEE_ID_PATTERN.match: 4 to 12 characters, each A-Z or 0-9
(the trailing newline tolerance of a $ anchor is an unused fragment). -/
def empIdOk (s : String) : Bool :=
  decide (4 ≤ s.length) && decide (s.length ≤ 12) &&
    s.data.all (fun c => decide (('A' ≤ c ∧ c ≤ 'Z') ∨ ('0' ≤ c ∧ c ≤ '9')))

/-- One business rule violation: field plus rule kind. -/
structure RowError where
  field : String
  error_message : ErrKind
deriving DecidableEq

/-- Transcription of rules 1 to 8 of validate_data for one row; isDup is the
composite key duplicate flag the loop computes from the rows seen so far. -/
def checkRow (row : Row) (refDate : Date) (isDup : Bool) : List RowError :=
  let empId := pyStr (rowGetD row "employee_id" (.str ""))
  let e1 : List RowError := if empIdOk empId then [] else [⟨"employee_id", .empIdFormat⟩]
  let dept := pyStr (rowGetD row "dept" (.str ""))
  let e2 : List RowError := if dept ∈ VALID_DEPARTMENTS then [] else [⟨"dept", .deptEnum⟩]
  let e3 : List RowError :=
    match pyFloat (rowGetD row "amount" (.int 0)) with
    | none => [⟨"amount", .amountInvalid⟩]
    | some .nan => []
    | some (.num q) => if q ≤ 0 ∨ 100000 < q then [⟨"amount", .amountRange⟩] else []
  let currency := pyStr (rowGetD row "currency" (.str ""))
  let e4 : List RowError := if currency ∈ VALID_CURRENCIES then [] else [⟨"currency", .currencyEnum⟩]
  let sdStr := pyStr (rowGetD row "spend_date" (.str ""))
  let e5 : List RowError :=
    match parseDate sdStr with
    | some dt => if dateLt refDate dt then [⟨"spend_date", .futureDate⟩] else []
    | none => [⟨"spend_date", .dateFormat⟩]
  let vendor := trimChars (pyStr (rowGetD row "vendor" (.str ""))).data
  let e6 : List RowError := if vendor.isEmpty then [⟨"vendor", .vendorEmpty⟩] else []
  let e7 : List RowError :=
    if currency ≠ "USD" ∧ currency ∈ VALID_CURRENCIES then
      match rowGet row "fx_rate" with
      | none => [⟨"fx_rate", .fxRequired⟩]
      | some v =>
        if v = .null ∨ v = .nan then [⟨"fx_rate", .fxRequired⟩]
        else
          match pyFloat v with
          | none => [⟨"fx_rate", .fxInvalid⟩]
          | some .nan => []
          | some (.num q) => if q < mkRat 1 10 ∨ 500 < q then [⟨"fx_rate", .fxRange⟩] else []
    else []
  let e8 : List RowError := if isDup then [⟨"employee_id", .duplicatePair⟩] else []
  e1 ++ e2 ++ e3 ++ e4 ++ e5 ++ e6 ++ e7 ++ e8

/-- The composite duplicate key of a row: stringified employee_id and
spend_date, as extracted at the top of the validate_data loop. -/
def pairOf (records : List Row) (idx : ℕ) : String × String :=
  (pyStr (rowGetD (records.getD idx []) "employee_id" (.str "")),
   pyStr (rowGetD (records.getD idx []) "spend_date" (.str "")))

/-- Accumulator carried by the validate_data loop. -/
structure VAcc where
  seen : List ((String × String) × ℕ)
  pending : List FixEntry
  newValid : List (Digest × Bool)
  skippedCount : ℕ
  errorRows : ℕ

/-- One iteration of the validate_data loop, transcribed from
app/tools/validation.py lines 77 to 236. -/
def validateStep (records : List Row) (refDate : Date) (fingerprints : List Digest)
    (prevValid : List (Digest × Bool)) (skippedIdx : List ℕ)
    (acc : VAcc) (idx : ℕ) : VAcc :=
  let row := records.getD idx []
  let fp := fingerprints.getD idx ⟨[]⟩
  let pair := pairOf records idx
  let isDup := dictContainsB acc.seen pair
  let seen2 := dictInsert acc.seen pair idx
  if idx ∈ skippedIdx then
    { acc with seen := seen2, skippedCount := acc.skippedCount + 1,
               newValid := dictInsert acc.newValid fp false }
  else if dictLookup prevValid fp = some true ∧ isDup = false then
    { acc with seen := seen2, newValid := dictInsert acc.newValid fp true,
               skippedCount := acc.skippedCount + 1 }
  else
    let errs := checkRow row refDate isDup
    let acc2 := { acc with seen := seen2,
                           newValid := dictInsert acc.newValid fp errs.isEmpty }
    if errs.isEmpty then acc2
    else
      { acc2 with
        errorRows := acc2.errorRows + 1
        pending := acc2.pending ++
          errs.map (fun e => ⟨idx, e.field, pyStr (rowGetD row e.field (.str "")),
                              e.error_message⟩) }

/-- Concatenation of per element lists, in order. -/
def listConcat (l : List α) (f : α → List β) : List β :=
  (l.map f).foldr (· ++ ·) []

/-- Result of validate_data, with the counts the tool returns. -/
inductive ValidateResult where
  | error (message : String)
  | waiting (total_rows valid_count error_count pending_fixes_count
      total_error_rows batch_size skipped_unchanged : ℕ)
  | success (total_rows valid_count error_count skipped_unchanged : ℕ)
deriving DecidableEq

/-- The fingerprint list validate_data works with: recomputed when missing
or of mismatched length, the stored one otherwise. -/
def effFingerprints (st : SessionState) : List Digest :=
  if st.row_fingerprints.length ≠ st.dataframe_records.length then
    compute_all_fingerprints st.dataframe_records
  else st.row_fingerprints

/-- Row indices already skipped by the user (the skipped_indices set). -/
def skippedIdxOf (st : SessionState) : List ℕ :=
  st.skipped_fixes.map (·.row_index)

/-- The loop of validate_data as a fold over the row indices. -/
def validateAcc (st : SessionState) (refDate : Date) : VAcc :=
  (List.range st.dataframe_records.length).foldl
    (validateStep st.dataframe_records refDate (effFingerprints st)
      st.validated_row_fingerprints (skippedIdxOf st))
    ⟨[], [], [], 0, 0⟩

/-- Transcription of app/tools/validation.py validate_data.  The reference
date is passed directly (the as_of_date string parse and date.today fallback
are glue outside every claim); now is the abstract clock value stamped into
waiting_since. -/
def validate_data (st : SessionState) (refDate : Date) (now : ℕ) :
    ValidateResult × SessionState :=
  let records := st.dataframe_records
  if records.isEmpty then (.error "No data loaded to validate.", st)
  else
    let fingerprints := effFingerprints st
    let st0 := { st with row_fingerprints := fingerprints }
    let acc := validateAcc st refDate
    let skippedIdx := skippedIdxOf st
    let st1 := { st0 with validated_row_fingerprints := acc.newValid }
    let total := records.length
    if acc.pending.isEmpty then
      (.success total (total - acc.errorRows) acc.errorRows acc.skippedCount,
       { st1 with pending_fixes := [], remaining_fixes := [],
                  status := "VALIDATING", validation_complete := true,
                  waiting_since := none })
    else
      let allRows := List.insertionSort (fun a b : ℕ => a ≤ b)
        ((acc.pending.map (·.row_index)).dedup)
      let batchRows := allRows.take FIX_BATCH_SIZE
      let restRows := allRows.drop FIX_BATCH_SIZE
      let batch := listConcat batchRows
        (fun r => acc.pending.filter (fun f => decide (f.row_index = r)))
      let remaining := listConcat restRows
        (fun r => acc.pending.filter (fun f => decide (f.row_index = r)))
      (.waiting total (total - acc.errorRows) acc.errorRows batch.length
         acc.errorRows batchRows.length acc.skippedCount,
       { st1 with remaining_fixes := remaining, pending_fixes := batch,
                  total_error_rows := acc.errorRows + skippedIdx.dedup.length,
                  status := "WAITING_FOR_USER", waiting_since := some now,
                  validation_complete := false })

def HITL_TIMEOUT_SECONDS : ℕ := 300

/-- Decision the background loop takes after inspecting the session. -/
inductive LoopDecision where
  | finish
  | continueLoop (message : String)
deriving DecidableEq

/-- Transcription of the post turn dispatch of run_pipeline in
app/run_manager.py lines 110 to 168.  The asyncio.wait_for block on
resume_event with timeout HITL_TIMEOUT_SECONDS is modeled by the Boolean
timedOut, true exactly when no resume signal arrived within the timeout; on
the resume path st is the refetched session state, already mutated by the
external fix submission.  The RunContext bookkeeping (completed flag, error
message) is outside every claim. -/
def run_pipeline_after_turn (st : SessionState) (timedOut : Bool) :
    LoopDecision × SessionState :=
  if st.status = "COMPLETED" ∨ st.status = "FAILED" then (.finish, st)
  else if st.status = "WAITING_FOR_USER" then
    let st2 := if timedOut then (apply_skip_all st).2 else st
    if st2.status = "RUNNING" ∨ st2.status = "FIXING" then
      (.continueLoop "Fixes applied. Please re-validate and continue.", st2)
    else
      (.continueLoop "Please continue processing.", st2)
  else
    (.continueLoop "Please continue processing.", st)


/-- A row satisfying all business rules (mirrors the VALID_ROW test fixture). -/
def validRow : Row :=
  [("employee_id", .str "EMP001"), ("dept", .str "ENG"), ("amount", .int 1500),
   ("currency", .str "USD"), ("spend_date", .str "2024-01-15"),
   ("vendor", .str "Acme Corp"), ("fx_rate", .int 1)]

/-- The valid row broken in two fields: invalid dept and negative amount. -/
def rowDeptAmountBad : Row :=
  [("employee_id", .str "EMP001"), ("dept", .str "BAD"), ("amount", .int (-1)),
   ("currency", .str "USD"), ("spend_date", .str "2024-01-15"),
   ("vendor", .str "Acme Corp"), ("fx_rate", .int 1)]

/-- Fresh session holding one row with two outstanding errors. -/
def twoErrorInit : SessionState :=
  { dataframe_records := [rowDeptAmountBad]
    row_fingerprints := compute_all_fingerprints [rowDeptAmountBad]
    validated_row_fingerprints := []
    pending_fixes := []
    remaining_fixes := []
    skipped_fixes := []
    status := "RUNNING"
    waiting_since := none
    validation_complete := false
    total_error_rows := 0 }

/-- The session after one validate_data pass: both errors of row 0 are
surfaced in the pending batch and the run waits for the user. -/
def twoErrorWaiting : SessionState :=
  (validate_data twoErrorInit ⟨2024, 6, 1⟩ 0).2

/-- C1 (code_bug).  The spec and the repository test suite state pop
semantics: fixing any field of row i removes every pending review entry for
row i.  The code of apply_single_fix (and apply_batch_fixes) filters
pending_fixes by row index AND field, so after fixing the dept field of row
0 the amount entry of row 0 is still pending.  This theorem evaluates the
code at that failing input: row 0 has two pending entries, one field is
fixed, and one entry for row 0 survives in pending_fixes. -/
theorem apply_single_fix_leaves_other_entries_of_row_pending :
    (twoErrorWaiting.pending_fixes.filter (fun f => decide (f.row_index = 0))).length = 2 ∧
    (apply_single_fix twoErrorWaiting (.int 0) "dept" (.str "ENG") 1).2.pending_fixes =
      [⟨0, "amount", "-1", .amountRange⟩] ∧
    (apply_batch_fixes twoErrorWaiting (.int 0) (.dict [("dept", .str "ENG")]) 1).2.pending_fixes =
      [⟨0, "amount", "-1", .amountRange⟩] := by decide

/-- A session whose single pending entry is stale: the recorded
current_value "BAD" no longer matches the present dept value "ENG". -/
def staleEntryState : SessionState :=
  { dataframe_records := [validRow]
    row_fingerprints := compute_all_fingerprints [validRow]
    validated_row_fingerprints := []
    pending_fixes := [⟨0, "dept", "BAD", .deptEnum⟩]
    remaining_fixes := []
    skipped_fixes := []
    status := "WAITING_FOR_USER"
    waiting_since := some 0
    validation_complete := false
    total_error_rows := 1 }

/-- C2 counterexample.  The claim says apply_skip_all excludes an error
entry whose recorded value no longer matches the row value.  The code has
no such staleness guard: the stale dept entry (recorded "BAD", present
value "ENG") is moved to skipped_fixes and counted. -/
theorem apply_skip_all_skips_stale_entry :
    pyStr (rowGetD validRow "dept" (.str "")) = "ENG" ∧
    (⟨0, "dept", "BAD", .deptEnum⟩ : FixEntry).current_value = "BAD" ∧
    (⟨0, "dept", "BAD", .deptEnum⟩ : FixEntry) ∈ (apply_skip_all staleEntryState).2.skipped_fixes ∧
    (apply_skip_all staleEntryState).1 = .skipped 1 := by decide

/-- C2 (corrected).  apply_skip_all moves every outstanding entry, pending
and remaining alike, to the skipped set, with no check of whether the
recorded value still matches the row; it clears both queues and reports the
total entry count. -/
theorem apply_skip_all_skips_all_outstanding (st : SessionState)
    (h : ¬(st.pending_fixes.isEmpty ∧ st.remaining_fixes.isEmpty)) :
    (apply_skip_all st).2.skipped_fixes =
      st.skipped_fixes ++ st.pending_fixes ++ st.remaining_fixes ∧
    (apply_skip_all st).2.pending_fixes = [] ∧
    (apply_skip_all st).2.remaining_fixes = [] ∧
    (apply_skip_all st).1 = .skipped (st.pending_fixes.length + st.remaining_fixes.length) := by
  simp only [apply_skip_all, if_neg h]
  exact ⟨trivial, trivial, trivial, trivial⟩

/-- C2 witness: the general theorem applied to the stale entry state. -/
theorem apply_skip_all_skips_all_outstanding_witness :
    (apply_skip_all staleEntryState).2.skipped_fixes =
      staleEntryState.skipped_fixes ++ staleEntryState.pending_fixes ++
        staleEntryState.remaining_fixes ∧
    (apply_skip_all staleEntryState).2.pending_fixes = [] ∧
    (apply_skip_all staleEntryState).2.remaining_fixes = [] ∧
    (apply_skip_all staleEntryState).1 =
      .skipped (staleEntryState.pending_fixes.length + staleEntryState.remaining_fixes.length) :=
  apply_skip_all_skips_all_outstanding staleEntryState (by decide)

/-- C7 (confirmed).  When the session is WAITING_FOR_USER and the resume
signal does not arrive before the timeout, the loop body forces skip_all on
the session state and the decision is to continue the loop, never to fail
or hang; the timeout constant is 300 seconds. -/
theorem run_pipeline_timeout_forces_skip_all (st : SessionState)
    (h : st.status = "WAITING_FOR_USER") :
    (∃ m, (run_pipeline_after_turn st true).1 = LoopDecision.continueLoop m) ∧
    (run_pipeline_after_turn st true).2 = (apply_skip_all st).2 ∧
    HITL_TIMEOUT_SECONDS = 300 := by
  have h1 : ¬(st.status = "COMPLETED" ∨ st.status = "FAILED") := by
    rw [h]; decide
  simp only [run_pipeline_after_turn, if_neg h1, if_pos h, if_true]
  refine ⟨?_, ?_, rfl⟩
  · split
    · exact ⟨_, rfl⟩
    · exact ⟨_, rfl⟩
  · split
    · rfl
    · rfl

/-- C7 witness: the theorem applied to the concrete waiting session. -/
theorem run_pipeline_timeout_forces_skip_all_witness :
    (∃ m, (run_pipeline_after_turn twoErrorWaiting true).1 = LoopDecision.continueLoop m) ∧
    (run_pipeline_after_turn twoErrorWaiting true).2 = (apply_skip_all twoErrorWaiting).2 ∧
    HITL_TIMEOUT_SECONDS = 300 :=
  run_pipeline_timeout_forces_skip_all twoErrorWaiting (by decide)

/-- Discriminator for the counterexample: is the argument a Python int. -/
def isIntArg : PyIdx → Bool
  | .int _ => true
  | _ => false

/-- C8 counterexample.  The claim says a non integer row_index is rejected
with an error and no mutation; the code first coerces via int(), so the
string "0" is accepted: the fix succeeds and the records are mutated. -/
theorem apply_single_fix_coerces_string_row_index :
    isIntArg (.str "0") = false ∧
    (apply_single_fix twoErrorInit (.str "0") "dept" (.str "ENG") 1).1 =
      .fixed 0 "dept" (.str "BAD") (.str "ENG") 0 ∧
    (apply_single_fix twoErrorInit (.str "0") "dept" (.str "ENG") 1).2.dataframe_records ≠
      twoErrorInit.dataframe_records := by decide

/-- C8 (corrected).  apply_single_fix and apply_batch_fixes return an error
and leave the state untouched whenever int(row_index) fails or the coerced
index is out of range, and apply_batch_fixes does so additionally whenever
the fixes payload is not a mapping or is empty. -/
theorem apply_fix_rejects_invalid_input_without_mutation
    (st : SessionState) (arg : PyIdx) (field : String) (v : Value)
    (fixes : FixesArg) (now : ℕ) :
    (pyToInt arg = none →
      apply_single_fix st arg field v now =
        (.error "Invalid row_index. Must be an integer.", st) ∧
      apply_batch_fixes st arg fixes now =
        (.error "Invalid row_index. Must be an integer.", st)) ∧
    (∀ i : ℤ, pyToInt arg = some i → i < 0 ∨ (st.dataframe_records.length : ℤ) ≤ i →
      apply_single_fix st arg field v now = (.error "Row index out of range.", st) ∧
      (∃ m, (apply_batch_fixes st arg fixes now).1 = .error m) ∧
      (apply_batch_fixes st arg fixes now).2 = st) ∧
    ((fixes = .notDict ∨ fixes = .dict []) →
      (∃ m, (apply_batch_fixes st arg fixes now).1 = .error m) ∧
      (apply_batch_fixes st arg fixes now).2 = st) := by
  refine ⟨fun h => ?_, fun i hi hrange => ?_, fun hf => ?_⟩
  · constructor
    · simp only [apply_single_fix, h]
    · simp only [apply_batch_fixes, h]
  · refine ⟨?_, ?_⟩
    · simp only [apply_single_fix, hi, if_pos hrange]
    · cases fixes with
      | notDict =>
        simp only [apply_batch_fixes, hi]
        exact ⟨⟨_, rfl⟩, trivial⟩
      | dict entries =>
        cases entries with
        | nil =>
          simp only [apply_batch_fixes, hi, List.isEmpty_nil, if_pos trivial, if_true]
          exact ⟨⟨_, rfl⟩, trivial⟩
        | cons e es =>
          simp only [apply_batch_fixes, hi, List.isEmpty_cons, if_neg Bool.false_ne_true,
            if_pos hrange]
          exact ⟨⟨_, rfl⟩, trivial⟩
  · cases h : pyToInt arg with
    | none =>
      rcases hf with hf | hf <;> subst hf <;> simp only [apply_batch_fixes, h] <;>
        exact ⟨⟨_, rfl⟩, trivial⟩
    | some i =>
      rcases hf with hf | hf <;> subst hf
      · simp only [apply_batch_fixes, h]
        exact ⟨⟨_, rfl⟩, trivial⟩
      · simp only [apply_batch_fixes, h, List.isEmpty_nil, if_true]
        exact ⟨⟨_, rfl⟩, trivial⟩

/-- C8 witness: the amended theorem applied at concrete bad inputs: a non
coercible argument, an out of range index, and an empty fixes payload. -/
theorem apply_fix_rejects_invalid_input_without_mutation_witness :
    apply_single_fix twoErrorInit .other "dept" (.str "ENG") 1 =
      (.error "Invalid row_index. Must be an integer.", twoErrorInit) ∧
    apply_single_fix twoErrorInit (.int 5) "dept" (.str "ENG") 1 =
      (.error "Row index out of range.", twoErrorInit) ∧
    (apply_batch_fixes twoErrorInit (.int 0) (.dict []) 1).2 = twoErrorInit :=
  ⟨((apply_fix_rejects_invalid_input_without_mutation twoErrorInit .other "dept"
      (.str "ENG") (.dict []) 1).1 rfl).1,
   (((apply_fix_rejects_invalid_input_without_mutation twoErrorInit (.int 5) "dept"
      (.str "ENG") (.dict []) 1).2.1) 5 rfl (by decide)).1,
   (((apply_fix_rejects_invalid_input_without_mutation twoErrorInit (.int 0) "dept"
      (.str "ENG") (.dict []) 1).2.2) (Or.inr rfl)).2⟩

/-- C4 counterexample.  Replacing the int value 1 of field a by the
different value, the string "1", leaves the fingerprint unchanged: both
normalize to the token "1". -/
theorem value_change_preserving_fingerprint :
    Value.int 1 ≠ Value.str "1" ∧
    rowSet [("a", Value.int 1)] "a" (Value.str "1") = [("a", Value.str "1")] ∧
    compute_row_fingerprint [("a", Value.int 1)] =
      compute_row_fingerprint [("a", Value.str "1")] := by decide

/-- C4 (corrected).  Replacing the value of a present field changes the
fingerprint whenever the new value normalizes differently from the stored
value (the exceptions the code admits are exactly the normalization
collisions: null and NaN to the same sentinel, floats rounding to the same
6 decimal value, and values with equal stringification). -/
theorem compute_row_fingerprint_sensitive (row : Row) (k : String) (v : Value)
    (hk : k ∈ row.map Prod.fst)
    (hnorm : ∀ p ∈ row, p.1 = k → normalizeValue v ≠ normalizeValue p.2) :
    compute_row_fingerprint (rowSet row k v) ≠ compute_row_fingerprint row := by
  intro hEq
  have hc : canonicalize_row (rowSet row k v) = canonicalize_row row :=
    congrArg Digest.canonical hEq
  obtain ⟨p0, hp0, hp0k⟩ := List.mem_map.mp hk
  have h1 : (k, normalizeValue p0.2) ∈ canonicalize_row row := by
    unfold canonicalize_row
    refine ((List.perm_insertionSort keyLE _).mem_iff).mpr ?_
    exact List.mem_map.mpr ⟨p0, hp0, by rw [hp0k]⟩
  rw [← hc] at h1
  have h2 : (k, normalizeValue p0.2) ∈
      (rowSet row k v).map (fun p => (p.1, normalizeValue p.2)) :=
    ((List.perm_insertionSort keyLE _).mem_iff).mp h1
  obtain ⟨q, hq, hqe⟩ := List.mem_map.mp h2
  have hq1 : q.1 = k := congrArg Prod.fst hqe
  have hq2 : normalizeValue q.2 = normalizeValue p0.2 := congrArg Prod.snd hqe
  rw [rowSet, if_pos hk] at hq
  obtain ⟨p, hp, hpe⟩ := List.mem_map.mp hq
  by_cases hpk : p.1 = k
  · rw [if_pos hpk] at hpe
    have hv : q.2 = v := by rw [← hpe]
    exact hnorm p0 hp0 hp0k (by rw [← hq2, hv])
  · rw [if_neg hpk] at hpe
    exact hpk (by rw [hpe]; exact hq1)

/-- C4 witness: the amended theorem at a concrete row: changing field a
from the int 1 to the string "2" changes the fingerprint. -/
theorem compute_row_fingerprint_sensitive_witness :
    compute_row_fingerprint (rowSet [("a", Value.int 1), ("b", Value.str "x")] "a" (Value.str "2")) ≠
      compute_row_fingerprint [("a", Value.int 1), ("b", Value.str "x")] :=
  compute_row_fingerprint_sensitive [("a", Value.int 1), ("b", Value.str "x")] "a"
    (Value.str "2") (by decide) (by decide)

theorem dictContainsB_dictErase_self [DecidableEq κ] (m : List (κ × ν)) (k : κ) :
    dictContainsB (dictErase m k) k = false := by
  induction m with
  | nil => rfl
  | cons p m ih =>
    by_cases h : p.1 = k
    · simpa [dictErase, List.filter_cons, h] using ih
    · simpa [dictErase, dictContainsB, List.filter_cons, h] using ih

theorem dictLookup_dictInsert_self [DecidableEq κ] (m : List (κ × ν)) (k : κ) (v : ν) :
    dictLookup (dictInsert m k v) k = some v := by
  unfold dictInsert
  by_cases hc : dictContainsB m k = true
  · rw [if_pos hc]
    induction m with
    | nil => simp [dictContainsB] at hc
    | cons p m ih =>
      by_cases h : p.1 = k
      · simp [dictLookup, List.find?, h]
      · simp only [dictContainsB, List.any_cons, Bool.or_eq_true, decide_eq_true_eq] at hc
        rcases hc with hc | hc
        · exact absurd hc h
        · simpa [dictLookup, List.find?, h] using ih hc
  · rw [if_neg hc]
    induction m with
    | nil => simp [dictLookup, List.find?]
    | cons p m ih =>
      simp only [dictContainsB, List.any_cons, Bool.or_eq_true, decide_eq_true_eq,
        not_or] at hc
      simpa [dictLookup, List.find?, hc.1] using
        ih (by simpa [dictContainsB] using hc.2)

theorem any_map_update [DecidableEq κ] (m : List (κ × ν)) (k k2 : κ) (v : ν)
    (hk : k2 ≠ k) :
    (m.map (fun p => if p.1 = k then (k, v) else p)).any (fun p => decide (p.1 = k2)) =
      m.any (fun p => decide (p.1 = k2)) := by
  induction m with
  | nil => rfl
  | cons p m ih =>
    by_cases h : p.1 = k
    · have h1 : (decide (k = k2)) = false := by
        simp only [decide_eq_false_iff_not]
        exact fun he => hk he.symm
      have h2 : (decide (p.1 = k2)) = false := by
        simp only [decide_eq_false_iff_not, h]
        exact fun he => hk he.symm
      simp [h, ih, h1, h2]
    · simp [h, ih]

theorem dictContainsB_dictInsert [DecidableEq κ] (m : List (κ × ν)) (k k2 : κ) (v : ν) :
    dictContainsB (dictInsert m k v) k2 = (dictContainsB m k2 || decide (k2 = k)) := by
  unfold dictInsert
  by_cases hc : dictContainsB m k = true
  · rw [if_pos hc]
    by_cases hk : k2 = k
    · subst hk
      have hd : (decide (k2 = k2) : Bool) = true := by simp
      rw [hd, Bool.or_true]
      obtain ⟨p, hp, hpk⟩ : ∃ p ∈ m, p.1 = k2 := by
        simpa [dictContainsB, List.any_eq_true, decide_eq_true_eq] using hc
      refine (List.any_eq_true).mpr ⟨(k2, v), List.mem_map.mpr ⟨p, hp, ?_⟩, by simp⟩
      simp [hpk]
    · simp only [decide_eq_false hk, Bool.or_false]
      exact any_map_update m k k2 v hk
  · rw [if_neg hc]
    have : (decide (k = k2)) = decide (k2 = k) := by
      simp [decide_eq_decide, eq_comm]
    simp [dictContainsB, List.any_append, this]

theorem rebatch_fixes_skipped (st : SessionState) (now : ℕ) :
    (rebatch_fixes st now).skipped_fixes = st.skipped_fixes := by
  unfold rebatch_fixes; split <;> rfl

theorem rebatch_fixes_valid (st : SessionState) (now : ℕ) :
    (rebatch_fixes st now).validated_row_fingerprints = st.validated_row_fingerprints := by
  unfold rebatch_fixes; split <;> rfl

theorem rebatch_fixes_records (st : SessionState) (now : ℕ) :
    (rebatch_fixes st now).dataframe_records = st.dataframe_records := by
  unfold rebatch_fixes; split <;> rfl

theorem rebatch_fixes_fingerprints (st : SessionState) (now : ℕ) :
    (rebatch_fixes st now).row_fingerprints = st.row_fingerprints := by
  unfold rebatch_fixes; split <;> rfl

theorem rebatch_fixes_pending_rows (st : SessionState) (now : ℕ) (i : ℕ)
    (h1 : ∀ f ∈ st.pending_fixes, f.row_index ≠ i)
    (h2 : ∀ f ∈ st.remaining_fixes, f.row_index ≠ i) :
    ∀ f ∈ (rebatch_fixes st now).pending_fixes, f.row_index ≠ i := by
  unfold rebatch_fixes; split
  · intro f hf
    exact h2 f (List.take_subset _ _ (by simpa using hf))
  · exact h1


/-- C5 (confirmed).  With an integer row index, apply_skip_row is the
benign no_op, leaving the state untouched, exactly when the row has no
pending error entry; otherwise it moves the row entries to the skipped
set, marks the row fingerprint invalid in the validity cache, removes the
row entries from pending review, and reports the skip.  The hypothesis on
remaining_fixes is the batching invariant validate_data establishes: the
entries of one row are never split between the surfaced batch and the
unsurfaced remainder. -/
theorem apply_skip_row_spec (st : SessionState) (i now : ℕ)
    (hdisj : ∀ f ∈ st.remaining_fixes, f.row_index ≠ i) :
    (((apply_skip_row st (.int (i : ℤ)) now).1 = .no_op "No pending fixes for this row." ∧
        (apply_skip_row st (.int (i : ℤ)) now).2 = st) ↔
      ∀ f ∈ st.pending_fixes, f.row_index ≠ i) ∧
    ((∃ f ∈ st.pending_fixes, f.row_index = i) →
      ((apply_skip_row st (.int (i : ℤ)) now).2.skipped_fixes =
        st.skipped_fixes ++ st.pending_fixes.filter (fun f => decide (f.row_index = i)) ∧
      (∀ f ∈ (apply_skip_row st (.int (i : ℤ)) now).2.pending_fixes, f.row_index ≠ i) ∧
      (i < st.row_fingerprints.length →
        dictLookup (apply_skip_row st (.int (i : ℤ)) now).2.validated_row_fingerprints
          (st.row_fingerprints.getD i ⟨[]⟩) = some false) ∧
      (∃ n, (apply_skip_row st (.int (i : ℤ)) now).1 = .skipped i n))) := by
  have hPiff : ∀ f : FixEntry,
      (decide ((f.row_index : ℤ) = (i : ℤ))) = decide (f.row_index = i) := by
    intro f
    simp [decide_eq_decide]
  have hfilter : st.pending_fixes.filter (fun f => decide ((f.row_index : ℤ) = (i : ℤ))) =
      st.pending_fixes.filter (fun f => decide (f.row_index = i)) :=
    List.filter_congr (fun f _ => hPiff f)
  by_cases hemp : st.pending_fixes.filter (fun f => decide (f.row_index = i)) = []
  · have hno : ∀ f ∈ st.pending_fixes, f.row_index ≠ i := by
      intro f hf hi
      have := List.filter_eq_nil_iff.mp hemp f hf
      simp [hi] at this
    have hr : apply_skip_row st (.int (i : ℤ)) now =
        (.no_op "No pending fixes for this row.", st) := by
      simp only [apply_skip_row, pyToInt]
      rw [hfilter, hemp]
      rfl
    rw [hr]
    refine ⟨⟨fun _ => hno, fun _ => ⟨rfl, rfl⟩⟩, fun hex => ?_⟩
    obtain ⟨f, hf, hfi⟩ := hex
    exact absurd hfi (hno f hf)
  · have hemp2 : (st.pending_fixes.filter
        (fun f => decide ((f.row_index : ℤ) = (i : ℤ)))).isEmpty = false := by
      rw [hfilter]
      simpa [List.isEmpty_iff] using hemp
    have hne : ∃ f ∈ st.pending_fixes, f.row_index = i := by
      obtain ⟨f, hf⟩ := List.exists_mem_of_ne_nil _ hemp
      exact ⟨f, List.mem_of_mem_filter hf, by simpa using List.of_mem_filter hf⟩
    constructor
    · constructor
      · rintro ⟨h1, -⟩
        exfalso
        revert h1
        simp only [apply_skip_row, pyToInt, hemp2]
        simp only [Bool.false_eq_true, if_false]
        split <;> simp
      · intro hall
        obtain ⟨f, hf, hfi⟩ := hne
        exact absurd hfi (hall f hf)
    · intro _
      refine ⟨?_, ?_, ?_, ?_⟩
      · simp only [apply_skip_row, pyToInt, hemp2]
        simp only [Bool.false_eq_true, if_false]
        split <;> split <;> simp [rebatch_fixes_skipped, hfilter]
      · simp only [apply_skip_row, pyToInt, hemp2]
        simp only [Bool.false_eq_true, if_false]
        have hbase : ∀ f ∈ st.pending_fixes.filter
            (fun f => decide ((f.row_index : ℤ) ≠ (i : ℤ))), f.row_index ≠ i := by
          intro f hf
          have := List.of_mem_filter hf
          simpa using this
        split <;> split <;>
          · intro f hf
            simp only at hf
            refine rebatch_fixes_pending_rows _ now i ?_ ?_ f hf
            · intro g hg
              have := List.of_mem_filter hg
              simpa using this
            · intro g hg
              exact hdisj g hg
      · intro hlen
        have htn : ((i : ℤ)).toNat = i := Int.toNat_natCast i
        simp only [apply_skip_row, pyToInt, hemp2]
        simp only [Bool.false_eq_true, if_false, htn, if_pos hlen]
        split <;>
          simp [rebatch_fixes_valid, dictLookup_dictInsert_self, List.getD]
      · have htn : ((i : ℤ)).toNat = i := Int.toNat_natCast i
        simp only [apply_skip_row, pyToInt, hemp2]
        simp only [Bool.false_eq_true, if_false, htn]
        exact ⟨_, rfl⟩

/-- C5 witness: the theorem applied to the waiting session, skipping row 0,
which has pending errors. -/
theorem apply_skip_row_spec_witness :
    (∃ f ∈ twoErrorWaiting.pending_fixes, f.row_index = 0) ∧
    ((apply_skip_row twoErrorWaiting (.int ((0 : ℕ) : ℤ)) 4).2.skipped_fixes =
      twoErrorWaiting.skipped_fixes ++
        twoErrorWaiting.pending_fixes.filter (fun f => decide (f.row_index = 0)) ∧
    (∀ f ∈ (apply_skip_row twoErrorWaiting (.int ((0 : ℕ) : ℤ)) 4).2.pending_fixes,
        f.row_index ≠ 0) ∧
    (0 < twoErrorWaiting.row_fingerprints.length →
      dictLookup (apply_skip_row twoErrorWaiting (.int ((0 : ℕ) : ℤ)) 4).2.validated_row_fingerprints
        (twoErrorWaiting.row_fingerprints.getD 0 ⟨[]⟩) = some false) ∧
    (∃ n, (apply_skip_row twoErrorWaiting (.int ((0 : ℕ) : ℤ)) 4).1 = .skipped 0 n)) :=
  ⟨by decide, (apply_skip_row_spec twoErrorWaiting 0 4 (by decide)).2 (by decide)⟩

theorem sorted_keyLT_of_sorted_nodup (l : List (String × NormValue))
    (hs : List.Sorted keyLE l) (hnd : (l.map Prod.fst).Nodup) :
    List.Sorted keyLT l := by
  have hne : List.Pairwise (fun a b : String × NormValue => a.1 ≠ b.1) l :=
    (List.pairwise_map).mp hnd
  exact hs.and hne

theorem canonicalize_row_perm (r₁ r₂ : Row) (hp : r₁.Perm r₂)
    (hnd : (r₁.map Prod.fst).Nodup) :
    canonicalize_row r₁ = canonicalize_row r₂ := by
  unfold canonicalize_row
  have hpm : (r₁.map (fun p => (p.1, normalizeValue p.2))).Perm
      (r₂.map (fun p => (p.1, normalizeValue p.2))) := hp.map _
  have hperm : (List.insertionSort keyLE (r₁.map (fun p => (p.1, normalizeValue p.2)))).Perm
      (List.insertionSort keyLE (r₂.map (fun p => (p.1, normalizeValue p.2)))) :=
    ((List.perm_insertionSort keyLE _).trans hpm).trans (List.perm_insertionSort keyLE _).symm
  have hkeys1 : ((r₁.map (fun p => (p.1, normalizeValue p.2))).map Prod.fst).Nodup := by
    rw [List.map_map]
    exact hnd
  have hkeys2 : ((r₂.map (fun p => (p.1, normalizeValue p.2))).map Prod.fst).Nodup :=
    ((hpm.map Prod.fst).nodup_iff).mp hkeys1
  refine List.eq_of_perm_of_sorted hperm
    (sorted_keyLT_of_sorted_nodup _ (List.sorted_insertionSort keyLE _) ?_)
    (sorted_keyLT_of_sorted_nodup _ (List.sorted_insertionSort keyLE _) ?_)
  · exact (((List.perm_insertionSort keyLE _).map Prod.fst).nodup_iff).mpr hkeys1
  · exact (((List.perm_insertionSort keyLE _).map Prod.fst).nodup_iff).mpr hkeys2

theorem rowSet_map_norm_congr (r : Row) (k : String) (a b : Value)
    (hab : normalizeValue a = normalizeValue b) :
    (rowSet r k a).map (fun p => (p.1, normalizeValue p.2)) =
      (rowSet r k b).map (fun p => (p.1, normalizeValue p.2)) := by
  unfold rowSet
  by_cases hk : k ∈ r.map Prod.fst
  · rw [if_pos hk, if_pos hk, List.map_map, List.map_map]
    refine List.map_congr_left ?_
    intro p _
    by_cases hp : p.1 = k <;> simp [hp, hab]
  · rw [if_neg hk, if_neg hk]
    simp [hab]

/-- C9 (confirmed).  Fingerprint determinism: the fingerprint is invariant
under permutation of field insertion order (for genuine dict rows, whose
keys are distinct), under replacing a float value by any other rational
that rounds to the same 6 decimal value, and null and NaN produce the same
fingerprint (both normalize to the "null" sentinel). -/
theorem compute_row_fingerprint_deterministic :
    (∀ r₁ r₂ : Row, r₁.Perm r₂ → (r₁.map Prod.fst).Nodup →
      compute_row_fingerprint r₁ = compute_row_fingerprint r₂) ∧
    (∀ (r : Row) (k : String) (x y : ℚ), pyRound6 x = pyRound6 y →
      compute_row_fingerprint (rowSet r k (.float x)) =
        compute_row_fingerprint (rowSet r k (.float y))) ∧
    (∀ (r : Row) (k : String),
      compute_row_fingerprint (rowSet r k .null) =
        compute_row_fingerprint (rowSet r k .nan)) := by
  refine ⟨?_, ?_, ?_⟩
  · intro r₁ r₂ hp hnd
    unfold compute_row_fingerprint
    exact congrArg Digest.mk (canonicalize_row_perm r₁ r₂ hp hnd)
  · intro r k x y hxy
    unfold compute_row_fingerprint canonicalize_row
    rw [rowSet_map_norm_congr r k (.float x) (.float y)
      (show normalizeValue (.float x) = normalizeValue (.float y) by
        simp [normalizeValue, hxy])]
  · intro r k
    unfold compute_row_fingerprint canonicalize_row
    rw [rowSet_map_norm_congr r k .null .nan rfl]

/-- C9 witness: key order permutation, the floats 1/3 and 0.333333 (equal
after rounding to 6 decimals), and null versus NaN, on concrete rows. -/
theorem compute_row_fingerprint_deterministic_witness :
    compute_row_fingerprint [("a", .int 1), ("b", .null)] =
      compute_row_fingerprint [("b", .null), ("a", .int 1)] ∧
    compute_row_fingerprint (rowSet validRow "amount" (.float (mkRat 1 3))) =
      compute_row_fingerprint (rowSet validRow "amount" (.float (mkRat 333333 1000000))) ∧
    compute_row_fingerprint (rowSet validRow "fx_rate" .null) =
      compute_row_fingerprint (rowSet validRow "fx_rate" .nan) :=
  ⟨compute_row_fingerprint_deterministic.1 _ _ (by decide) (by decide),
   compute_row_fingerprint_deterministic.2.1 validRow "amount" _ _ (by decide),
   compute_row_fingerprint_deterministic.2.2 validRow "fx_rate"⟩

/-- Reference form of the duplicate flag: some earlier row shares the
composite (employee_id, spend_date) key. -/
def isDupB (records : List Row) (idx : ℕ) : Bool :=
  (List.range idx).any (fun j => decide (pairOf records j = pairOf records idx))

/-- Reference form of the rows validate_data does not fully evaluate: user
skipped rows and cache valid non duplicate rows (both counted in
skipped_unchanged). -/
def servedAt (st : SessionState) (idx : ℕ) : Bool :=
  decide (idx ∈ skippedIdxOf st) ||
    (decide (dictLookup st.validated_row_fingerprints
        ((effFingerprints st).getD idx ⟨[]⟩) = some true) &&
      !isDupB st.dataframe_records idx)

/-- Reference form of the rule violations of one row under full evaluation. -/
def rowErrsAt (st : SessionState) (refDate : Date) (idx : ℕ) : List RowError :=
  checkRow (st.dataframe_records.getD idx []) refDate (isDupB st.dataframe_records idx)

/-- Reference form of the pending entries one row contributes. -/
def entriesAt (st : SessionState) (refDate : Date) (idx : ℕ) : List FixEntry :=
  if servedAt st idx then []
  else (rowErrsAt st refDate idx).map
    (fun e => ⟨idx, e.field,
      pyStr (rowGetD (st.dataframe_records.getD idx []) e.field (.str "")),
      e.error_message⟩)

/-- Validity bit validate_data writes into the fresh cache for one row. -/
def newValidVal (st : SessionState) (refDate : Date) (idx : ℕ) : Bool :=
  if decide (idx ∈ skippedIdxOf st) then false
  else if servedAt st idx then true
  else (rowErrsAt st refDate idx).isEmpty

theorem isDupB_iff (records : List Row) (m : ℕ) :
    isDupB records m = true ↔ ∃ j < m, pairOf records j = pairOf records m := by
  simp [isDupB, List.any_eq_true, List.mem_range]

/-- One validateStep call, characterized against the reference functions,
given that the seen dict of the accumulator holds exactly the keys of the
earlier rows. -/
theorem validateStep_char (st : SessionState) (refDate : Date) (acc : VAcc) (m : ℕ)
    (hseen : dictContainsB acc.seen (pairOf st.dataframe_records m) =
      isDupB st.dataframe_records m) :
    validateStep st.dataframe_records refDate (effFingerprints st)
        st.validated_row_fingerprints (skippedIdxOf st) acc m =
      { seen := dictInsert acc.seen (pairOf st.dataframe_records m) m,
        pending := acc.pending ++ entriesAt st refDate m,
        newValid := dictInsert acc.newValid ((effFingerprints st).getD m ⟨[]⟩)
          (newValidVal st refDate m),
        skippedCount := acc.skippedCount + (if servedAt st m then 1 else 0),
        errorRows := acc.errorRows +
          (if !servedAt st m && !(rowErrsAt st refDate m).isEmpty then 1 else 0) } := by
  unfold validateStep
  by_cases hsk : m ∈ skippedIdxOf st
  · have hserved : servedAt st m = true := by
      unfold servedAt
      rw [decide_eq_true hsk, Bool.true_or]
    have he : entriesAt st refDate m = [] := by
      unfold entriesAt
      rw [if_pos hserved]
    have hnv : newValidVal st refDate m = false := by
      unfold newValidVal
      rw [if_pos (decide_eq_true hsk)]
    have hec : (if !servedAt st m && !(rowErrsAt st refDate m).isEmpty then 1 else 0) = 0 := by
      rw [hserved]
      rfl
    rw [if_pos hsk, he, hnv, hserved]
    simp
  · rw [if_neg hsk]
    have hd0 : (decide (m ∈ skippedIdxOf st)) = false := decide_eq_false hsk
    by_cases hc : dictLookup st.validated_row_fingerprints
        ((effFingerprints st).getD m ⟨[]⟩) = some true ∧
        dictContainsB acc.seen (pairOf st.dataframe_records m) = false
    · have hdup : isDupB st.dataframe_records m = false := by rw [← hseen]; exact hc.2
      have hserved : servedAt st m = true := by
        unfold servedAt
        rw [hd0, decide_eq_true hc.1, hdup, Bool.false_or]
        rfl
      have he : entriesAt st refDate m = [] := by
        unfold entriesAt
        rw [if_pos hserved]
      have hnv : newValidVal st refDate m = true := by
        unfold newValidVal
        rw [if_neg (by rw [hd0]; exact Bool.false_ne_true), if_pos hserved]
      have hec : (if !servedAt st m && !(rowErrsAt st refDate m).isEmpty then 1 else 0) = 0 := by
        rw [hserved]
        rfl
      rw [if_pos hc, he, hnv, hserved]
      simp
    · have hserved : servedAt st m = false := by
        unfold servedAt
        rw [hd0, Bool.false_or]
        cases h1 : (decide (dictLookup st.validated_row_fingerprints
            ((effFingerprints st).getD m ⟨[]⟩) = some true)) with
        | false => rfl
        | true =>
          have h1p := of_decide_eq_true h1
          have h2 : isDupB st.dataframe_records m = true := by
            by_cases h2p : isDupB st.dataframe_records m = true
            · exact h2p
            · exact absurd ⟨h1p, by rw [hseen]; exact Bool.not_eq_true _ ▸ h2p⟩ hc
          rw [h2]
          rfl
      have he : entriesAt st refDate m =
          (rowErrsAt st refDate m).map
            (fun e => ⟨m, e.field,
              pyStr (rowGetD (st.dataframe_records.getD m []) e.field (.str "")),
              e.error_message⟩) := by
        unfold entriesAt
        rw [if_neg (by rw [hserved]; exact Bool.false_ne_true)]
      have hnv : newValidVal st refDate m = (rowErrsAt st refDate m).isEmpty := by
        unfold newValidVal
        rw [if_neg (by rw [hd0]; exact Bool.false_ne_true),
          if_neg (by rw [hserved]; exact Bool.false_ne_true)]
      have hsc : (if servedAt st m then 1 else 0) = 0 := by
        rw [hserved]
        rfl
      rw [if_neg hc]
      have herrs : checkRow (st.dataframe_records.getD m [])
          refDate (dictContainsB acc.seen (pairOf st.dataframe_records m)) =
          rowErrsAt st refDate m := by
        rw [hseen]
        rfl
      rw [herrs, he, hnv, hserved]
      by_cases hemp : (rowErrsAt st refDate m).isEmpty = true
      · rw [if_pos hemp]
        have : (rowErrsAt st refDate m) = [] := List.isEmpty_iff.mp hemp
        simp [this]
      · rw [if_neg hemp]
        have hemp2 : (rowErrsAt st refDate m).isEmpty = false := by
          cases h : (rowErrsAt st refDate m).isEmpty
          · rfl
          · exact absurd h hemp
        rw [hemp2]
        simp

/-- The validate_data loop truncated to the first m rows. -/
def validateAccUpTo (st : SessionState) (refDate : Date) (m : ℕ) : VAcc :=
  (List.range m).foldl
    (validateStep st.dataframe_records refDate (effFingerprints st)
      st.validated_row_fingerprints (skippedIdxOf st))
    ⟨[], [], [], 0, 0⟩

theorem validateAcc_eq_upTo (st : SessionState) (refDate : Date) :
    validateAcc st refDate = validateAccUpTo st refDate st.dataframe_records.length := rfl

theorem listConcat_cons (x : α) (l : List α) (f : α → List β) :
    listConcat (x :: l) f = f x ++ listConcat l f := rfl

theorem listConcat_append (l₁ l₂ : List α) (f : α → List β) :
    listConcat (l₁ ++ l₂) f = listConcat l₁ f ++ listConcat l₂ f := by
  induction l₁ with
  | nil => rfl
  | cons x l ih => simp only [List.cons_append, listConcat_cons, ih, List.append_assoc]

theorem mem_listConcat (a : β) (l : List α) (f : α → List β) :
    a ∈ listConcat l f ↔ ∃ x ∈ l, a ∈ f x := by
  induction l with
  | nil => simp [listConcat]
  | cons x l ih =>
    simp only [listConcat_cons, List.mem_append, ih, List.mem_cons]
    constructor
    · rintro (h | ⟨y, hy, ha⟩)
      · exact ⟨x, Or.inl rfl, h⟩
      · exact ⟨y, Or.inr hy, ha⟩
    · rintro ⟨y, hy | hy, ha⟩
      · subst hy; exact Or.inl ha
      · exact Or.inr ⟨y, hy, ha⟩

/-- The validate_data loop over the first m rows, characterized: the seen
keys are exactly the keys of the earlier rows, and the pending entries and
the two counters aggregate the per row reference functions. -/
theorem validateAccUpTo_spec (st : SessionState) (refDate : Date) (m : ℕ) :
    (∀ p : String × String, dictContainsB (validateAccUpTo st refDate m).seen p = true ↔
      ∃ j < m, pairOf st.dataframe_records j = p) ∧
    (validateAccUpTo st refDate m).pending = listConcat (List.range m) (entriesAt st refDate) ∧
    (validateAccUpTo st refDate m).skippedCount =
      (List.range m).countP (fun j => servedAt st j) ∧
    (validateAccUpTo st refDate m).errorRows =
      (List.range m).countP (fun j => !servedAt st j && !(rowErrsAt st refDate j).isEmpty) := by
  induction m with
  | zero =>
    refine ⟨?_, rfl, rfl, rfl⟩
    intro p
    simp [validateAccUpTo, dictContainsB]
  | succ m ih =>
    obtain ⟨ihs, ihp, ihsk, ihe⟩ := ih
    have hstep : validateAccUpTo st refDate (m + 1) =
        validateStep st.dataframe_records refDate (effFingerprints st)
          st.validated_row_fingerprints (skippedIdxOf st) (validateAccUpTo st refDate m) m := by
      unfold validateAccUpTo
      rw [List.range_succ, List.foldl_append]
      rfl
    have hdupm : dictContainsB (validateAccUpTo st refDate m).seen
        (pairOf st.dataframe_records m) = isDupB st.dataframe_records m := by
      cases hA : dictContainsB (validateAccUpTo st refDate m).seen
          (pairOf st.dataframe_records m) with
      | true =>
        exact ((isDupB_iff _ _).mpr ((ihs _).mp hA)).symm
      | false =>
        cases hB : isDupB st.dataframe_records m with
        | false => rfl
        | true =>
          exact absurd (hA.symm.trans ((ihs _).mpr ((isDupB_iff _ _).mp hB)))
            Bool.false_ne_true
    rw [hstep, validateStep_char st refDate _ m hdupm]
    refine ⟨?_, ?_, ?_, ?_⟩
    · intro p
      simp only [dictContainsB_dictInsert, Bool.or_eq_true, decide_eq_true_eq]
      rw [ihs p]
      constructor
      · rintro (⟨j, hj, he⟩ | he)
        · exact ⟨j, Nat.lt_succ_of_lt hj, he⟩
        · exact ⟨m, Nat.lt_succ_self m, he.symm⟩
      · rintro ⟨j, hj, he⟩
        rcases Nat.lt_succ_iff_lt_or_eq.mp hj with hj | hj
        · exact Or.inl ⟨j, hj, he⟩
        · subst hj; exact Or.inr he.symm
    · show (validateAccUpTo st refDate m).pending ++ entriesAt st refDate m = _
      rw [ihp, List.range_succ, listConcat_append]
      simp [listConcat]
    · show (validateAccUpTo st refDate m).skippedCount + _ = _
      rw [ihsk, List.range_succ, List.countP_append]
      simp [List.countP_cons]
    · show (validateAccUpTo st refDate m).errorRows + _ = _
      rw [ihe, List.range_succ, List.countP_append]
      simp [List.countP_cons]

def vErrorCount : ValidateResult → ℕ
  | .error _ => 0
  | .waiting _ _ e _ _ _ _ => e
  | .success _ _ e _ => e

def vValidCount : ValidateResult → ℕ
  | .error _ => 0
  | .waiting _ v _ _ _ _ _ => v
  | .success _ v _ _ => v

def vSkippedUnchanged : ValidateResult → ℕ
  | .error _ => 0
  | .waiting _ _ _ _ _ _ s => s
  | .success _ _ _ s => s

/-- Splitting the full pending list into the surfaced batch and the held
remainder preserves membership. -/
theorem mem_batch_or_remaining (pending : List FixEntry) (f : FixEntry) :
    (f ∈ listConcat ((List.insertionSort (fun a b : ℕ => a ≤ b)
          ((pending.map (·.row_index)).dedup)).take FIX_BATCH_SIZE)
        (fun r => pending.filter (fun g => decide (g.row_index = r))) ∨
     f ∈ listConcat ((List.insertionSort (fun a b : ℕ => a ≤ b)
          ((pending.map (·.row_index)).dedup)).drop FIX_BATCH_SIZE)
        (fun r => pending.filter (fun g => decide (g.row_index = r)))) ↔
      f ∈ pending := by
  rw [← List.mem_append, ← listConcat_append, List.take_append_drop]
  constructor
  · intro h
    obtain ⟨r, hr, hf⟩ := (mem_listConcat _ _ _).mp h
    exact List.mem_of_mem_filter hf
  · intro h
    refine (mem_listConcat _ _ _).mpr ⟨f.row_index, ?_, ?_⟩
    · refine ((List.perm_insertionSort _ _).mem_iff).mpr ?_
      rw [List.mem_dedup]
      exact List.mem_map.mpr ⟨f, h, rfl⟩
    · exact List.mem_filter.mpr ⟨h, by simp⟩

/-- validate_data characterized by the per row reference functions: the
returned skipped_unchanged, error_count and valid_count, the outstanding
entries of the post state, and the persisted total_error_rows. -/
theorem validate_data_spec (st : SessionState) (refDate : Date) (now : ℕ)
    (hne : ¬ st.dataframe_records.isEmpty = true) :
    vSkippedUnchanged (validate_data st refDate now).1 =
      (List.range st.dataframe_records.length).countP (fun j => servedAt st j) ∧
    vErrorCount (validate_data st refDate now).1 =
      (List.range st.dataframe_records.length).countP
        (fun j => !servedAt st j && !(rowErrsAt st refDate j).isEmpty) ∧
    vValidCount (validate_data st refDate now).1 =
      st.dataframe_records.length - vErrorCount (validate_data st refDate now).1 ∧
    (∀ f : FixEntry,
      f ∈ (validate_data st refDate now).2.pending_fixes ++
          (validate_data st refDate now).2.remaining_fixes ↔
        f ∈ listConcat (List.range st.dataframe_records.length) (entriesAt st refDate)) ∧
    ((validate_data st refDate now).2.pending_fixes ≠ [] →
      (validate_data st refDate now).2.total_error_rows =
        vErrorCount (validate_data st refDate now).1 + (skippedIdxOf st).dedup.length) := by
  obtain ⟨hs, hp, hsk, he⟩ := validateAccUpTo_spec st refDate st.dataframe_records.length
  simp only [validate_data]
  rw [if_neg hne, validateAcc_eq_upTo st refDate]
  by_cases hpe : (validateAccUpTo st refDate st.dataframe_records.length).pending.isEmpty = true
  · rw [if_pos hpe]
    have hpnil : (validateAccUpTo st refDate st.dataframe_records.length).pending = [] :=
      List.isEmpty_iff.mp hpe
    refine ⟨?_, ?_, ?_, ?_, ?_⟩
    · simp only [vSkippedUnchanged]
      exact hsk
    · simp only [vErrorCount]
      exact he
    · simp only [vValidCount, vErrorCount]
    · intro f
      rw [← hp, hpnil]
      simp
    · intro h
      exact absurd rfl h
  · rw [if_neg hpe]
    refine ⟨?_, ?_, ?_, ?_, ?_⟩
    · simp only [vSkippedUnchanged]
      exact hsk
    · simp only [vErrorCount]
      exact he
    · simp only [vValidCount, vErrorCount]
    · intro f
      simp only [List.mem_append]
      rw [← hp]
      exact mem_batch_or_remaining _ f
    · intro h
      simp only [vErrorCount]

theorem dup_mem_checkRow (row : Row) (refDate : Date) :
    (⟨"employee_id", ErrKind.duplicatePair⟩ : RowError) ∈ checkRow row refDate true := by
  simp [checkRow]

theorem mem_ite_list {c : Prop} [Decidable c] {l₁ l₂ : List α} {a : α}
    (h : a ∈ if c then l₁ else l₂) : a ∈ l₁ ∨ a ∈ l₂ := by
  split at h
  · exact Or.inl h
  · exact Or.inr h

theorem no_dup_leaf {e x : RowError} (h : e ∈ [x])
    (hx : x.error_message ≠ ErrKind.duplicatePair) :
    e.error_message ≠ ErrKind.duplicatePair := by
  rw [List.mem_singleton.mp h]
  exact hx

theorem checkRow_false_no_dup (row : Row) (refDate : Date) :
    ∀ e ∈ checkRow row refDate false, e.error_message ≠ ErrKind.duplicatePair := by
  intro e he hdup
  simp only [checkRow] at he
  rcases List.mem_append.mp he with he | he
  · rcases List.mem_append.mp he with he | he
    · rcases List.mem_append.mp he with he | he
      · rcases List.mem_append.mp he with he | he
        · rcases List.mem_append.mp he with he | he
          · rcases List.mem_append.mp he with he | he
            · rcases List.mem_append.mp he with he | he
              · rcases mem_ite_list he with he | he
                · exact absurd he (List.not_mem_nil e)
                · exact (no_dup_leaf he (by decide)) hdup
              · rcases mem_ite_list he with he | he
                · exact absurd he (List.not_mem_nil e)
                · exact (no_dup_leaf he (by decide)) hdup
            · cases hpf : pyFloat (rowGetD row "amount" (Value.int 0)) with
              | none =>
                rw [hpf] at he
                exact (no_dup_leaf he (by decide)) hdup
              | some pf =>
                cases pf with
                | nan =>
                  rw [hpf] at he
                  exact absurd he (List.not_mem_nil e)
                | num q =>
                  rw [hpf] at he
                  rcases mem_ite_list he with he | he
                  · exact (no_dup_leaf he (by decide)) hdup
                  · exact absurd he (List.not_mem_nil e)
          · rcases mem_ite_list he with he | he
            · exact absurd he (List.not_mem_nil e)
            · exact (no_dup_leaf he (by decide)) hdup
        · cases hpd : parseDate (pyStr (rowGetD row "spend_date" (Value.str ""))) with
          | some dt =>
            rw [hpd] at he
            rcases mem_ite_list he with he | he
            · exact (no_dup_leaf he (by decide)) hdup
            · exact absurd he (List.not_mem_nil e)
          | none =>
            rw [hpd] at he
            exact (no_dup_leaf he (by decide)) hdup
      · rcases mem_ite_list he with he | he
        · exact (no_dup_leaf he (by decide)) hdup
        · exact absurd he (List.not_mem_nil e)
    · rcases mem_ite_list he with he | he
      · cases hv : rowGet row "fx_rate" with
        | none =>
          rw [hv] at he
          exact (no_dup_leaf he (by decide)) hdup
        | some v =>
          rw [hv] at he
          rcases mem_ite_list he with he | he
          · exact (no_dup_leaf he (by decide)) hdup
          · cases hpv : pyFloat v with
            | none =>
              rw [hpv] at he
              exact (no_dup_leaf he (by decide)) hdup
            | some pf =>
              cases pf with
              | nan =>
                rw [hpv] at he
                exact absurd he (List.not_mem_nil e)
              | num q =>
                rw [hpv] at he
                rcases mem_ite_list he with he | he
                · exact (no_dup_leaf he (by decide)) hdup
                · exact absurd he (List.not_mem_nil e)
      · exact absurd he (List.not_mem_nil e)
  · simp at he

theorem mem_entriesAt {st : SessionState} {refDate : Date} {i : ℕ} {f : FixEntry}
    (h : f ∈ entriesAt st refDate i) :
    servedAt st i = false ∧ f.row_index = i ∧
    ∃ e ∈ rowErrsAt st refDate i, f.error_message = e.error_message := by
  unfold entriesAt at h
  by_cases hs : servedAt st i = true
  · rw [if_pos hs] at h
    exact absurd h (List.not_mem_nil f)
  · have hs' : servedAt st i = false := Bool.eq_false_iff.mpr hs
    rw [if_neg hs] at h
    obtain ⟨e, he, hfe⟩ := List.mem_map.mp h
    exact ⟨hs', by rw [← hfe], e, he, by rw [← hfe]⟩

/-- C6 (confirmed).  The composite key uniqueness check sees every row:
every prior row registers its (employee_id, spend_date) key whether it was
user skipped, cache valid or evaluated (isDupB quantifies over all earlier
rows); a later occurrence that is not user skipped is flagged with a
duplicate violation regardless of the validity cache (a cache valid
duplicate is not fast pathed), while a first occurrence never receives a
duplicate violation. -/
theorem validate_duplicate_check (st : SessionState) (refDate : Date) (now : ℕ)
    (hne : st.dataframe_records ≠ []) :
    (∀ i < st.dataframe_records.length, i ∉ skippedIdxOf st →
      isDupB st.dataframe_records i = true →
      (⟨i, "employee_id",
        pyStr (rowGetD (st.dataframe_records.getD i []) "employee_id" (.str "")),
        ErrKind.duplicatePair⟩ : FixEntry) ∈
        (validate_data st refDate now).2.pending_fixes ++
          (validate_data st refDate now).2.remaining_fixes) ∧
    (∀ i : ℕ, isDupB st.dataframe_records i = false →
      ∀ f ∈ (validate_data st refDate now).2.pending_fixes ++
          (validate_data st refDate now).2.remaining_fixes,
        f.row_index = i → f.error_message ≠ ErrKind.duplicatePair) := by
  have hne' : ¬ st.dataframe_records.isEmpty = true := by
    intro h
    exact hne (List.isEmpty_iff.mp h)
  obtain ⟨-, -, -, hmem, -⟩ := validate_data_spec st refDate now hne'
  constructor
  · intro i hi hsk hdup
    refine (hmem _).mpr ((mem_listConcat _ _ _).mpr ⟨i, List.mem_range.mpr hi, ?_⟩)
    have hserved : servedAt st i = false := by
      unfold servedAt
      rw [decide_eq_false hsk, hdup]
      simp
    unfold entriesAt
    rw [if_neg (by rw [hserved]; exact Bool.false_ne_true)]
    refine List.mem_map.mpr ⟨⟨"employee_id", ErrKind.duplicatePair⟩, ?_, rfl⟩
    unfold rowErrsAt
    rw [hdup]
    exact dup_mem_checkRow _ _
  · intro i hdup f hf hfi hkind
    obtain ⟨i0, hi0, hfe⟩ := (mem_listConcat _ _ _).mp ((hmem f).mp hf)
    obtain ⟨-, hrow, e, he, hke⟩ := mem_entriesAt hfe
    have hii : i0 = i := by rw [← hrow, hfi]
    subst hii
    unfold rowErrsAt at he
    rw [hdup] at he
    exact checkRow_false_no_dup _ _ e he (by rw [← hke, hkind])

/-- Two rows sharing the composite (employee_id, spend_date) key. -/
def dupState : SessionState :=
  { dataframe_records := [validRow, validRow]
    row_fingerprints := compute_all_fingerprints [validRow, validRow]
    validated_row_fingerprints := []
    pending_fixes := []
    remaining_fixes := []
    skipped_fixes := []
    status := "RUNNING"
    waiting_since := none
    validation_complete := false
    total_error_rows := 0 }

/-- C6 witness: on two identical rows, the second occurrence receives the
duplicate violation and the first receives none. -/
theorem validate_duplicate_check_witness :
    ((⟨1, "employee_id",
        pyStr (rowGetD (dupState.dataframe_records.getD 1 []) "employee_id" (.str "")),
        ErrKind.duplicatePair⟩ : FixEntry) ∈
      (validate_data dupState ⟨2024, 6, 1⟩ 3).2.pending_fixes ++
        (validate_data dupState ⟨2024, 6, 1⟩ 3).2.remaining_fixes) ∧
    (∀ f ∈ (validate_data dupState ⟨2024, 6, 1⟩ 3).2.pending_fixes ++
        (validate_data dupState ⟨2024, 6, 1⟩ 3).2.remaining_fixes,
      f.row_index = 0 → f.error_message ≠ ErrKind.duplicatePair) :=
  ⟨(validate_duplicate_check dupState ⟨2024, 6, 1⟩ 3 (by decide)).1 1 (by decide)
      (by decide) (by decide),
   (validate_duplicate_check dupState ⟨2024, 6, 1⟩ 3 (by decide)).2 0 (by decide)⟩

/-- C10 (confirmed).  The returned error_count counts exactly the non
skipped rows with at least one violation (a user skipped row is excluded
from rule evaluation and from error_count), valid_count is total rows minus
error_count, no outstanding entry belongs to a skipped row, and the
persisted total_error_rows adds every distinct skipped row index on top of
error_count.  The hypothesis on the cache is its soundness invariant: a
fingerprint marked valid belongs to a row whose full evaluation is clean. -/
theorem validate_counts_treat_skipped_as_valid (st : SessionState) (refDate : Date)
    (now : ℕ) (hne : st.dataframe_records ≠ [])
    (hcache : ∀ i < st.dataframe_records.length,
      dictLookup st.validated_row_fingerprints ((effFingerprints st).getD i ⟨[]⟩) =
        some true →
      checkRow (st.dataframe_records.getD i []) refDate false = []) :
    vErrorCount (validate_data st refDate now).1 =
      (List.range st.dataframe_records.length).countP
        (fun i => decide (i ∉ skippedIdxOf st) && !(rowErrsAt st refDate i).isEmpty) ∧
    vValidCount (validate_data st refDate now).1 =
      st.dataframe_records.length - vErrorCount (validate_data st refDate now).1 ∧
    (∀ f ∈ (validate_data st refDate now).2.pending_fixes ++
        (validate_data st refDate now).2.remaining_fixes,
      f.row_index ∉ skippedIdxOf st) ∧
    ((validate_data st refDate now).2.pending_fixes ≠ [] →
      (validate_data st refDate now).2.total_error_rows =
        vErrorCount (validate_data st refDate now).1 + (skippedIdxOf st).dedup.length) := by
  have hne' : ¬ st.dataframe_records.isEmpty = true := by
    intro h
    exact hne (List.isEmpty_iff.mp h)
  obtain ⟨-, herr, hvalid, hmem, htot⟩ := validate_data_spec st refDate now hne'
  have hcong : ∀ i ∈ List.range st.dataframe_records.length,
      (!servedAt st i && !(rowErrsAt st refDate i).isEmpty) =
        (decide (i ∉ skippedIdxOf st) && !(rowErrsAt st refDate i).isEmpty) := by
    intro i hi
    by_cases hsk : i ∈ skippedIdxOf st
    · have hserved : servedAt st i = true := by
        unfold servedAt
        rw [decide_eq_true hsk, Bool.true_or]
      rw [hserved]
      have : (decide (i ∉ skippedIdxOf st)) = false := by
        simp [hsk]
      rw [this]
      rfl
    · have h1 : (decide (i ∉ skippedIdxOf st)) = true := by
        simp [hsk]
      rw [h1, Bool.true_and]
      cases hemp : (rowErrsAt st refDate i).isEmpty with
      | true =>
        simp
      | false =>
        have hserved : servedAt st i = false := by
          unfold servedAt
          rw [decide_eq_false hsk, Bool.false_or]
          cases hl : (decide (dictLookup st.validated_row_fingerprints
              ((effFingerprints st).getD i ⟨[]⟩) = some true)) with
          | false => rfl
          | true =>
            cases hd : isDupB st.dataframe_records i with
            | true => rfl
            | false =>
              exfalso
              have hclean := hcache i (List.mem_range.mp hi) (of_decide_eq_true hl)
              have : rowErrsAt st refDate i = [] := by
                unfold rowErrsAt
                rw [hd]
                exact hclean
              rw [this] at hemp
              simp at hemp
        rw [hserved]
        rfl
  have hcount : (List.range st.dataframe_records.length).countP
      (fun j => !servedAt st j && !(rowErrsAt st refDate j).isEmpty) =
      (List.range st.dataframe_records.length).countP
        (fun i => decide (i ∉ skippedIdxOf st) && !(rowErrsAt st refDate i).isEmpty) := by
    rw [List.countP_eq_length_filter, List.countP_eq_length_filter,
      List.filter_congr hcong]
  refine ⟨herr.trans hcount, hvalid, ?_, htot⟩
  intro f hf
  obtain ⟨i0, hi0, hfe⟩ := (mem_listConcat _ _ _).mp ((hmem f).mp hf)
  obtain ⟨hserved, hrow, -⟩ := mem_entriesAt hfe
  rw [hrow]
  intro hcontra
  have : servedAt st i0 = true := by
    unfold servedAt
    rw [decide_eq_true hcontra, Bool.true_or]
  rw [this] at hserved
  exact absurd hserved (by decide)

/-- The valid row broken in the vendor field, on a distinct spend date. -/
def rowVendorBad : Row :=
  [("employee_id", .str "EMP001"), ("dept", .str "ENG"), ("amount", .int 1500),
   ("currency", .str "USD"), ("spend_date", .str "2024-01-16"),
   ("vendor", .str ""), ("fx_rate", .int 1)]

/-- Three rows: one valid, one broken but already skipped by the user, one
broken and outstanding. -/
def c10State : SessionState :=
  { dataframe_records := [validRow, rowDeptAmountBad, rowVendorBad]
    row_fingerprints := compute_all_fingerprints [validRow, rowDeptAmountBad, rowVendorBad]
    validated_row_fingerprints := []
    pending_fixes := []
    remaining_fixes := []
    skipped_fixes := [⟨1, "dept", "BAD", .deptEnum⟩]
    status := "RUNNING"
    waiting_since := none
    validation_complete := false
    total_error_rows := 0 }

/-- C10 witness: with row 1 skipped, error_count counts only row 2,
valid_count is 3 minus 1, no outstanding entry is for row 1, and the
persisted total_error_rows is error_count plus one skipped row. -/
theorem validate_counts_treat_skipped_as_valid_witness :
    vErrorCount (validate_data c10State ⟨2024, 6, 1⟩ 3).1 =
      (List.range c10State.dataframe_records.length).countP
        (fun i => decide (i ∉ skippedIdxOf c10State) &&
          !(rowErrsAt c10State ⟨2024, 6, 1⟩ i).isEmpty) ∧
    vValidCount (validate_data c10State ⟨2024, 6, 1⟩ 3).1 =
      c10State.dataframe_records.length -
        vErrorCount (validate_data c10State ⟨2024, 6, 1⟩ 3).1 ∧
    (∀ f ∈ (validate_data c10State ⟨2024, 6, 1⟩ 3).2.pending_fixes ++
        (validate_data c10State ⟨2024, 6, 1⟩ 3).2.remaining_fixes,
      f.row_index ∉ skippedIdxOf c10State) ∧
    ((validate_data c10State ⟨2024, 6, 1⟩ 3).2.pending_fixes ≠ [] →
      (validate_data c10State ⟨2024, 6, 1⟩ 3).2.total_error_rows =
        vErrorCount (validate_data c10State ⟨2024, 6, 1⟩ 3).1 +
          (skippedIdxOf c10State).dedup.length) :=
  validate_counts_treat_skipped_as_valid c10State ⟨2024, 6, 1⟩ 3 (by decide) (by decide)

/-- The row produced by applying a batch of field updates in order. -/
def applyFixesToRow (row : Row) (entries : List (String × Value)) : Row :=
  entries.foldl (fun r fv => rowSet r fv.1 fv.2) row

theorem batch_fold_fst (entries : List (String × Value)) (row : Row)
    (l : List (String × Value × Value)) :
    (entries.foldl (fun (acc : Row × List (String × Value × Value)) fv =>
      (rowSet acc.1 fv.1 fv.2, acc.2 ++ [(fv.1, rowGetD acc.1 fv.1 .null, fv.2)]))
      (row, l)).1 = applyFixesToRow row entries := by
  induction entries generalizing row l with
  | nil => rfl
  | cons fv rest ih =>
    simp only [applyFixesToRow, List.foldl_cons]
    exact ih (rowSet row fv.1 fv.2) (l ++ [(fv.1, rowGetD row fv.1 .null, fv.2)])

theorem not_int_range (st : SessionState) (i : ℕ) (hi : i < st.dataframe_records.length) :
    ¬((i : ℤ) < 0 ∨ (st.dataframe_records.length : ℤ) ≤ (i : ℤ)) := by
  push_neg
  exact ⟨Int.natCast_nonneg i, by exact_mod_cast hi⟩

theorem get?_eq_some_getD (l : List Digest) (i : ℕ) (hlt : i < l.length) :
    l.get? i = some (l.getD i ⟨[]⟩) := by
  rw [List.get?_eq_getElem?, List.getElem?_eq_getElem hlt, List.getD_eq_getElem?_getD,
    List.getElem?_eq_getElem hlt]
  rfl

/-- Post state of apply_single_fix on an in range integer index. -/
theorem apply_single_fix_int_post (st : SessionState) (i : ℕ) (field : String)
    (v : Value) (now : ℕ) (hi : i < st.dataframe_records.length)
    (hlen : st.row_fingerprints.length = st.dataframe_records.length) :
    (apply_single_fix st (.int (i : ℤ)) field v now).2.dataframe_records =
      st.dataframe_records.set i (rowSet (st.dataframe_records.getD i []) field v) ∧
    (apply_single_fix st (.int (i : ℤ)) field v now).2.row_fingerprints =
      st.row_fingerprints.set i
        (compute_row_fingerprint (rowSet (st.dataframe_records.getD i []) field v)) ∧
    dictContainsB (apply_single_fix st (.int (i : ℤ)) field v now).2.validated_row_fingerprints
      (st.row_fingerprints.getD i ⟨[]⟩) = false ∧
    (apply_single_fix st (.int (i : ℤ)) field v now).2.skipped_fixes = st.skipped_fixes := by
  have hlt : i < st.row_fingerprints.length := by rw [hlen]; exact hi
  simp only [apply_single_fix, pyToInt]
  rw [if_neg (not_int_range st i hi)]
  simp only [Int.toNat_natCast, get?_eq_some_getD st.row_fingerprints i hlt, if_pos hlt]
  refine ⟨?_, ?_, ?_, ?_⟩
  · split <;> split <;> simp [rebatch_fixes_records]
  · split <;> split <;> simp [rebatch_fixes_fingerprints]
  · split <;> split <;> simp_all [rebatch_fixes_valid, dictContainsB_dictErase_self]
  · split <;> split <;> simp [rebatch_fixes_skipped]

/-- Post state of apply_batch_fixes on an in range integer index and a non
empty fixes dict. -/
theorem apply_batch_fixes_int_post (st : SessionState) (i : ℕ)
    (entries : List (String × Value)) (now : ℕ) (hi : i < st.dataframe_records.length)
    (hlen : st.row_fingerprints.length = st.dataframe_records.length)
    (hent : entries ≠ []) :
    (apply_batch_fixes st (.int (i : ℤ)) (.dict entries) now).2.row_fingerprints =
      st.row_fingerprints.set i
        (compute_row_fingerprint (applyFixesToRow (st.dataframe_records.getD i []) entries)) ∧
    dictContainsB (apply_batch_fixes st (.int (i : ℤ)) (.dict entries) now).2.validated_row_fingerprints
      (st.row_fingerprints.getD i ⟨[]⟩) = false := by
  have hlt : i < st.row_fingerprints.length := by rw [hlen]; exact hi
  have hee : entries.isEmpty = false := by
    cases entries with
    | nil => exact absurd rfl hent
    | cons e es => rfl
  simp only [apply_batch_fixes, pyToInt, hee]
  rw [if_neg (by exact Bool.false_ne_true), if_neg (not_int_range st i hi)]
  simp only [Int.toNat_natCast, get?_eq_some_getD st.row_fingerprints i hlt, if_pos hlt,
    batch_fold_fst]
  constructor
  · split <;> split <;> simp [rebatch_fixes_fingerprints]
  · split <;> split <;> simp_all [rebatch_fixes_valid, dictContainsB_dictErase_self]

/-- C3 (confirmed).  A fix recomputes the row fingerprint and drops the old
cache entry in one operation: after apply_single_fix (and after
apply_batch_fixes) on an in range row, the validity cache holds no entry
keyed by the pre fix fingerprint and the fingerprint list carries the
recomputed fingerprint of the mutated row; consequently, provided the row
is not user skipped and its new fingerprint is not a surviving cache entry
marked valid, the next validate_data pass does not serve the row from the
cache: it contributes nothing to skipped_unchanged, which counts exactly
the served rows. -/
theorem apply_fix_purges_stale_cache_entry (st : SessionState) (i : ℕ) (field : String)
    (v : Value) (entries : List (String × Value)) (now now2 clock : ℕ) (refDate : Date)
    (hlen : st.row_fingerprints.length = st.dataframe_records.length)
    (hi : i < st.dataframe_records.length)
    (hent : entries ≠ [])
    (hsk : i ∉ skippedIdxOf st)
    (hfresh : dictLookup (apply_single_fix st (.int (i : ℤ)) field v now).2.validated_row_fingerprints
        ((effFingerprints (apply_single_fix st (.int (i : ℤ)) field v now).2).getD i ⟨[]⟩) ≠
      some true) :
    dictContainsB (apply_single_fix st (.int (i : ℤ)) field v now).2.validated_row_fingerprints
      (st.row_fingerprints.getD i ⟨[]⟩) = false ∧
    (apply_single_fix st (.int (i : ℤ)) field v now).2.row_fingerprints =
      st.row_fingerprints.set i
        (compute_row_fingerprint (rowSet (st.dataframe_records.getD i []) field v)) ∧
    dictContainsB (apply_batch_fixes st (.int (i : ℤ)) (.dict entries) now2).2.validated_row_fingerprints
      (st.row_fingerprints.getD i ⟨[]⟩) = false ∧
    (apply_batch_fixes st (.int (i : ℤ)) (.dict entries) now2).2.row_fingerprints =
      st.row_fingerprints.set i
        (compute_row_fingerprint (applyFixesToRow (st.dataframe_records.getD i []) entries)) ∧
    servedAt (apply_single_fix st (.int (i : ℤ)) field v now).2 i = false ∧
    vSkippedUnchanged
        (validate_data (apply_single_fix st (.int (i : ℤ)) field v now).2 refDate clock).1 =
      (List.range (apply_single_fix st (.int (i : ℤ)) field v now).2.dataframe_records.length).countP
        (fun j => servedAt (apply_single_fix st (.int (i : ℤ)) field v now).2 j) := by
  obtain ⟨hrec, hfp, hcont, hskip⟩ := apply_single_fix_int_post st i field v now hi hlen
  obtain ⟨hfpb, hcontb⟩ := apply_batch_fixes_int_post st i entries now2 hi hlen hent
  have hserved : servedAt (apply_single_fix st (.int (i : ℤ)) field v now).2 i = false := by
    unfold servedAt
    have h1 : (decide (i ∈ skippedIdxOf (apply_single_fix st (.int (i : ℤ)) field v now).2)) =
        false := by
      apply decide_eq_false
      unfold skippedIdxOf
      rw [hskip]
      exact hsk
    have h2 : (decide (dictLookup
        (apply_single_fix st (.int (i : ℤ)) field v now).2.validated_row_fingerprints
        ((effFingerprints (apply_single_fix st (.int (i : ℤ)) field v now).2).getD i ⟨[]⟩) =
        some true)) = false := decide_eq_false hfresh
    rw [h1, h2]
    rfl
  refine ⟨hcont, hfp, hcontb, hfpb, hserved, ?_⟩
  have hlen2 : (apply_single_fix st (.int (i : ℤ)) field v now).2.dataframe_records.length =
      st.dataframe_records.length := by
    rw [hrec, List.length_set]
  have hne2 : ¬ (apply_single_fix st (.int (i : ℤ)) field v now).2.dataframe_records.isEmpty =
      true := by
    intro h
    have h0 := List.isEmpty_iff.mp h
    rw [h0] at hlen2
    rw [← hlen2] at hi
    exact absurd hi (by simp)
  exact (validate_data_spec (apply_single_fix st (.int (i : ℤ)) field v now).2
    refDate clock hne2).1

/-- C3 witness: fixing the dept field of the waiting session drops the old
cache entry, recomputes the fingerprint, and the next validate pass fully
re-evaluates row 0. -/
theorem apply_fix_purges_stale_cache_entry_witness :
    dictContainsB (apply_single_fix twoErrorWaiting (.int ((0 : ℕ) : ℤ)) "dept"
        (.str "ENG") 1).2.validated_row_fingerprints
      (twoErrorWaiting.row_fingerprints.getD 0 ⟨[]⟩) = false ∧
    (apply_single_fix twoErrorWaiting (.int ((0 : ℕ) : ℤ)) "dept" (.str "ENG") 1).2.row_fingerprints =
      twoErrorWaiting.row_fingerprints.set 0
        (compute_row_fingerprint
          (rowSet (twoErrorWaiting.dataframe_records.getD 0 []) "dept" (.str "ENG"))) ∧
    dictContainsB (apply_batch_fixes twoErrorWaiting (.int ((0 : ℕ) : ℤ))
        (.dict [("dept", .str "ENG")]) 1).2.validated_row_fingerprints
      (twoErrorWaiting.row_fingerprints.getD 0 ⟨[]⟩) = false ∧
    (apply_batch_fixes twoErrorWaiting (.int ((0 : ℕ) : ℤ))
        (.dict [("dept", .str "ENG")]) 1).2.row_fingerprints =
      twoErrorWaiting.row_fingerprints.set 0
        (compute_row_fingerprint
          (applyFixesToRow (twoErrorWaiting.dataframe_records.getD 0 [])
            [("dept", .str "ENG")])) ∧
    servedAt (apply_single_fix twoErrorWaiting (.int ((0 : ℕ) : ℤ)) "dept" (.str "ENG") 1).2 0 =
      false ∧
    vSkippedUnchanged
        (validate_data (apply_single_fix twoErrorWaiting (.int ((0 : ℕ) : ℤ)) "dept"
          (.str "ENG") 1).2 ⟨2024, 6, 1⟩ 2).1 =
      (List.range (apply_single_fix twoErrorWaiting (.int ((0 : ℕ) : ℤ)) "dept"
          (.str "ENG") 1).2.dataframe_records.length).countP
        (fun j => servedAt (apply_single_fix twoErrorWaiting (.int ((0 : ℕ) : ℤ)) "dept"
          (.str "ENG") 1).2 j) :=
  apply_fix_purges_stale_cache_entry twoErrorWaiting 0 "dept" (.str "ENG")
    [("dept", .str "ENG")] 1 1 2 ⟨2024, 6, 1⟩ (by decide) (by decide) (by decide)
    (by decide) (by decide)
